import Mathlib

/-!
Verification development for a SysY compiler (AST-to-Koopa-IR lowering in
src/ast.cpp, IR-to-RISC-V emission in src/main.cpp).  The definitions below
are a shallow embedding of the C++ source: each definition mirrors one
function or one class method of the repository, with mutable state passed
explicitly and C++ exceptions modelled by Except/Option.
-/

namespace SysY

/-- Result of 32-bit two's-complement wrap-around, modelling the value of a
C++ int arithmetic result. -/
def wrap32 (n : Int) : Int := (n + 2 ^ 31) % 2 ^ 32 - 2 ^ 31

/-- Fueled little-endian decimal digit list of a natural number.  The fuel
argument makes the recursion structural; fuel of at least n suffices for
input n, since the input shrinks by a factor of ten per step. -/
def decRevCore : Nat → Nat → List Char
  | 0, _ => []
  | fuel + 1, n => if n = 0 then [] else Char.ofNat (48 + n % 10) :: decRevCore fuel (n / 10)

/-- Decimal representation of a natural number, modelling std::to_string
for non-negative values. -/
def decimalString (n : Nat) : String :=
  if n = 0 then "0" else String.mk (decRevCore n n).reverse

/-- Numeric value of a decimal digit character. -/
def digitVal (c : Char) : Nat := c.toNat - 48

/-- Numeric value of a little-endian decimal digit list. -/
def valueRev : List Char → Nat
  | [] => 0
  | c :: cs => digitVal c + 10 * valueRev cs

theorem char_toNat_digit (d : Nat) (h : d < 10) : (Char.ofNat (48 + d)).toNat = 48 + d := by
  interval_cases d <;> decide

theorem valueRev_decRevCore : ∀ fuel n : Nat, n ≤ fuel → valueRev (decRevCore fuel n) = n := by
  intro fuel
  induction fuel with
  | zero =>
    intro n h
    interval_cases n
    simp [decRevCore, valueRev]
  | succ f ih =>
    intro n h
    by_cases h0 : n = 0
    · subst h0; simp [decRevCore, valueRev]
    · have hd : n % 10 < 10 := Nat.mod_lt _ (by omega)
      have hrec : n / 10 ≤ f := by
        have : n / 10 < n := Nat.div_lt_self (by omega) (by omega)
        omega
      simp only [decRevCore, if_neg h0, valueRev, digitVal, char_toNat_digit _ hd,
        ih _ hrec]
      omega

theorem decimalString_injective : Function.Injective decimalString := by
  intro m n h
  unfold decimalString at h
  by_cases hm : m = 0 <;> by_cases hn : n = 0
  · omega
  · exfalso
    rw [if_pos hm, if_neg hn] at h
    have h2 : ("0" : String).data = (decRevCore n n).reverse := congrArg String.data h
    have h3 : (decRevCore n n).reverse = ['0'] := h2.symm
    have h4 : decRevCore n n = ['0'] := by
      have := congrArg List.reverse h3
      simpa using this
    have h5 : valueRev (decRevCore n n) = n := valueRev_decRevCore n n le_rfl
    rw [h4] at h5
    have h6 : valueRev ['0'] = 0 := by decide
    omega
  · exfalso
    rw [if_neg hm, if_pos hn] at h
    have h2 : (String.mk (decRevCore m m).reverse).data = ("0" : String).data :=
      congrArg String.data h
    have h3 : (decRevCore m m).reverse = ['0'] := h2
    have h4 : decRevCore m m = ['0'] := by
      have := congrArg List.reverse h3
      simpa using this
    have h5 : valueRev (decRevCore m m) = m := valueRev_decRevCore m m le_rfl
    rw [h4] at h5
    have h6 : valueRev ['0'] = 0 := by decide
    omega
  · rw [if_neg hm, if_neg hn] at h
    have h2 : (decRevCore m m).reverse = (decRevCore n n).reverse := by
      have := congrArg String.data h
      simpa using this
    have h3 : decRevCore m m = decRevCore n n := by
      have := congrArg List.reverse h2
      simpa using this
    have h5 : valueRev (decRevCore m m) = m := valueRev_decRevCore m m le_rfl
    have h6 : valueRev (decRevCore n n) = n := valueRev_decRevCore n n le_rfl
    rw [h3, h6] at h5
    omega

/-- Decimal representation of a C++ int value, modelling std::to_string and
ostream output of possibly negative integers. -/
def intToString (i : Int) : String :=
  if i < 0 then "-" ++ decimalString i.natAbs else decimalString i.toNat

/-! ## Symbol table manager (class SymbolTableManager, src/ast.cpp lines 19-137) -/

/-- Mirror of the SymbolKind enum. -/
inductive SymbolKind where
  | VAR_SYMBOL
  | FUNC_SYMBOL
deriving DecidableEq

/-- Mirror of struct SymbolInfo. -/
structure SymbolInfo where
  name : String
  unique_name : String
  value : Int
  is_const : Bool
  kind : SymbolKind
  type : String
  dimensions : List Int
deriving DecidableEq

/-- One scope: the var_table of struct SymbolTable, as an association list. -/
abbrev Scope := List (String × SymbolInfo)

/-- Membership test, mirror of var_table.count(name). -/
def scopeHas (s : Scope) (n : String) : Bool := s.any (fun p => p.1 == n)

/-- Lookup in one scope, mirror of var_table[name] reads. -/
def scopeFind : Scope → String → Option SymbolInfo
  | [], _ => none
  | p :: rest, n => if p.1 == n then some p.2 else scopeFind rest n

/-- Mirror of struct LoopContext. -/
structure LoopContext where
  break_label : String
  continue_label : String
deriving DecidableEq

/-- State of the SymbolTableManager.  The C++ vector table_stack has the
global scope at the front and the current scope at the back; here the list
head is the current (innermost) scope and the last element is the global
scope, so that the inward-out lookup walk is plain head-to-tail recursion. -/
structure SymMgr where
  table_stack : List Scope
  symbol_counter : List (String × Nat)
  loop_stack : List LoopContext

/-- Mirror of the SymbolTableManager constructor, which enters scope 0. -/
def SymMgr.init : SymMgr := ⟨[[]], [], []⟩

/-- Mirror of enter_scope. -/
def enterScope (m : SymMgr) : SymMgr := { m with table_stack := [] :: m.table_stack }

/-- Mirror of exit_scope; none models the thrown runtime_error. -/
def exitScope (m : SymMgr) : Option SymMgr :=
  match m.table_stack with
  | [] => none
  | _ :: rest => some { m with table_stack := rest }

/-- Mirror of is_global_scope (table_stack.size() == 1). -/
def isGlobalScope (m : SymMgr) : Bool := m.table_stack.length == 1

/-- Innermost-first walk over the scope stack, mirror of the rbegin-to-rend
loop in lookup_symbol. -/
def lookupScopes : List Scope → String → Option SymbolInfo
  | [], _ => none
  | s :: rest, n =>
    match scopeFind s n with
    | some sym => some sym
    | none => lookupScopes rest n

/-- Mirror of lookup_symbol. -/
def lookupSymbol (m : SymMgr) (n : String) : Option SymbolInfo :=
  lookupScopes m.table_stack n

/-- Read of symbol_counter[name], with the map defaulting to zero. -/
def counterGet : List (String × Nat) → String → Nat
  | [], _ => 0
  | p :: rest, n => if p.1 == n then p.2 else counterGet rest n

/-- Candidate unique name built in add_symbol:
symbol.name + "_" + std::to_string(count). -/
def candName (name : String) (k : Nat) : String := name ++ "_" ++ decimalString k

/-- Mirror of the do-while reroll loop of add_symbol: take counter value c,
build the candidate, and retry with c+1 while the candidate is bound in the
global scope.  The fuel argument makes the loop structural; add_symbol runs
it with fuel larger than the global scope, which the pigeonhole argument
below shows is never exhausted, so the zero-fuel fallback is unreachable.
The second component is the counter value after the loop. -/
def rerollAux (name : String) (g : Scope) : Nat → Nat → String × Nat
  | c, 0 => (candName name c, c + 1)
  | c, fuel + 1 =>
    if scopeHas g (candName name c) then rerollAux name g (c + 1) fuel
    else (candName name c, c + 1)

/-- Global scope of the manager (front of the C++ vector, last element
here). -/
def globalScope (m : SymMgr) : Scope := m.table_stack.getLastD []

/-- Mirror of add_symbol (src/ast.cpp lines 67-88).  Returns none when the
C++ code would throw (no scope); otherwise returns the C++ bool result, the
symbol as left by the call (unique_name assigned only on success, exactly as
the by-reference argument is mutated), and the updated manager. -/
def addSymbol (sym : SymbolInfo) (m : SymMgr) : Option (Bool × SymbolInfo × SymMgr) :=
  match m.table_stack with
  | [] => none
  | cur :: rest =>
    if scopeHas cur sym.name then some (false, sym, m)
    else if rest.isEmpty then
      let sym2 := { sym with unique_name := sym.name }
      some (true, sym2, { m with table_stack := ((sym.name, sym2) :: cur) :: rest })
    else
      let g := (cur :: rest).getLastD []
      let c0 := counterGet m.symbol_counter sym.name
      let res := rerollAux sym.name g c0 (g.length + 1)
      let sym2 := { sym with unique_name := res.1 }
      some (true, sym2, { m with
        table_stack := ((sym.name, sym2) :: cur) :: rest,
        symbol_counter := (sym.name, res.2) :: m.symbol_counter })

/-- Mirror of clear_symbol_counter. -/
def clearSymbolCounter (m : SymMgr) : SymMgr := { m with symbol_counter := [] }

/-- Mirror of enter_loop: pushes break_label = exit_label and
continue_label = entry_label. -/
def enterLoop (entry_label exit_label : String) (m : SymMgr) : SymMgr :=
  { m with loop_stack := ⟨exit_label, entry_label⟩ :: m.loop_stack }

/-- Mirror of exit_loop; none models the thrown runtime_error. -/
def exitLoop (m : SymMgr) : Option SymMgr :=
  match m.loop_stack with
  | [] => none
  | _ :: rest => some { m with loop_stack := rest }

/-- Mirror of get_break_label; none models the thrown runtime_error. -/
def getBreakLabel (m : SymMgr) : Option String :=
  m.loop_stack.head?.map (fun c => c.break_label)

/-- Mirror of get_continue_label; none models the thrown runtime_error. -/
def getContinueLabel (m : SymMgr) : Option String :=
  m.loop_stack.head?.map (fun c => c.continue_label)

/-! ## Expression AST (src/ast.h) and the constant evaluator (evaluate_const
methods of src/ast.cpp lines 722-929).

Forwarding variants (an ExpAST around an LOrExpAST, an LOrExpAST that just
holds an LAndExpAST, a PrimaryExpAST around an LVal or a literal, and so on)
delegate unchanged in every C++ method, so they are collapsed here; each
remaining constructor corresponds to one concrete C++ node shape.  The
constExp constructor is kept separate because ConstExpAST::generate_ir folds
instead of emitting IR. -/

inductive Expr where
  | number (n : Int)
  | lvalE (ident : String) (idxs : List Expr)
  | paren (e : Expr)
  | constExp (e : Expr)
  | unaryOp (op : String) (e : Expr)
  | call (ident : String) (args : List Expr)
  | mulOp (op : String) (a b : Expr)
  | addOp (op : String) (a b : Expr)
  | relOp (op : String) (a b : Expr)
  | eqOp (op : String) (a b : Expr)
  | landOp (a b : Expr)
  | lorOp (a b : Expr)

/-- Mirror of the evaluate_const methods.  A C++ throw becomes an error
value; arithmetic on int is wrapped to 32 bits; division and modulo
truncate toward zero as in C++. -/
def evaluateConst : Expr → SymMgr → Except String Int
  | .number n, _ => .ok n
  | .paren e, m => evaluateConst e m
  | .constExp e, m => evaluateConst e m
  | .lvalE id idxs, m =>
    match lookupSymbol m id with
    | none => .error ("Undefined variable: " ++ id)
    | some sym =>
      match idxs with
      | _ :: _ => .error "Cannot evaluate array element in constant expression"
      | [] => .ok sym.value
  | .unaryOp op e, m =>
    match evaluateConst e m with
    | .error msg => .error msg
    | .ok v =>
      if op == "+" then .ok v
      else if op == "-" then .ok (wrap32 (-v))
      else if op == "!" then .ok (if v = 0 then 1 else 0)
      else .ok 0
  | .call _ _, _ => .error "Cannot evaluate function call in constant expression"
  | .mulOp op a b, m =>
    match evaluateConst a m with
    | .error msg => .error msg
    | .ok lhs =>
      match evaluateConst b m with
      | .error msg => .error msg
      | .ok rhs =>
        if op == "*" then .ok (wrap32 (lhs * rhs))
        else if op == "/" then .ok (wrap32 (Int.tdiv lhs rhs))
        else if op == "%" then .ok (Int.tmod lhs rhs)
        else .ok 0
  | .addOp op a b, m =>
    match evaluateConst a m with
    | .error msg => .error msg
    | .ok lhs =>
      match evaluateConst b m with
      | .error msg => .error msg
      | .ok rhs =>
        if op == "+" then .ok (wrap32 (lhs + rhs))
        else if op == "-" then .ok (wrap32 (lhs - rhs))
        else .ok 0
  | .relOp op a b, m =>
    match evaluateConst a m with
    | .error msg => .error msg
    | .ok lhs =>
      match evaluateConst b m with
      | .error msg => .error msg
      | .ok rhs =>
        if op == "<" then .ok (if lhs < rhs then 1 else 0)
        else if op == ">" then .ok (if rhs < lhs then 1 else 0)
        else if op == "<=" then .ok (if lhs ≤ rhs then 1 else 0)
        else if op == ">=" then .ok (if rhs ≤ lhs then 1 else 0)
        else .ok 0
  | .eqOp op a b, m =>
    match evaluateConst a m with
    | .error msg => .error msg
    | .ok lhs =>
      match evaluateConst b m with
      | .error msg => .error msg
      | .ok rhs =>
        if op == "==" then .ok (if lhs = rhs then 1 else 0)
        else if op == "!=" then .ok (if lhs = rhs then 0 else 1)
        else .ok 0
  | .landOp a b, m =>
    match evaluateConst a m with
    | .error msg => .error msg
    | .ok lhs =>
      match evaluateConst b m with
      | .error msg => .error msg
      | .ok rhs => .ok (if lhs ≠ 0 ∧ rhs ≠ 0 then 1 else 0)
  | .lorOp a b, m =>
    match evaluateConst a m with
    | .error msg => .error msg
    | .ok lhs =>
      match evaluateConst b m with
      | .error msg => .error msg
      | .ok rhs => .ok (if lhs ≠ 0 ∨ rhs ≠ 0 then 1 else 0)

/-- Expression forms on which the constant evaluator cannot fail: no
function call anywhere, and every identifier reference is index-free and
bound in the symbol table. -/
def constSafe : Expr → SymMgr → Bool
  | .number _, _ => true
  | .paren e, m => constSafe e m
  | .constExp e, m => constSafe e m
  | .lvalE id idxs, m => idxs.isEmpty && (lookupSymbol m id).isSome
  | .unaryOp _ e, m => constSafe e m
  | .call _ _, _ => false
  | .mulOp _ a b, m => constSafe a m && constSafe b m
  | .addOp _ a b, m => constSafe a m && constSafe b m
  | .relOp _ a b, m => constSafe a m && constSafe b m
  | .eqOp _ a b, m => constSafe a m && constSafe b m
  | .landOp a b, m => constSafe a m && constSafe b m
  | .lorOp a b, m => constSafe a m && constSafe b m

/-! ## Initializer trees and flatten_initializer (src/ast.cpp lines 145-201).

An InitValAST or ConstInitValAST either carries a single expression (the
single constructor) or a list of sub-initializers (the list constructor,
possibly empty, modelling empty braces).  flatten_initializer appends to
flat_exps (a null pointer entry, here none, marks a zero-padded position)
and advances the write cursor written_count. -/

inductive InitTree (α : Type) where
  | single (e : α)
  | list (inits : List (InitTree α))

/-- Product of the dimensions from index j on, mirroring the stride and
sub_array_size accumulation loops (C++ long long products). -/
def listProdFrom (dims : List Int) (j : Nat) : Int :=
  (dims.drop j).foldl (fun a b => a * b) 1

mutual

/-- Mirror of flatten_initializer.  Errors model the two thrown
runtime_errors; division and modulo are C++ truncating operations. -/
def flattenInitializer {α : Type} (t : InitTree α) (dims : List Int) (level : Nat)
    (flat : List (Option α)) (written : Int) : Except String (List (Option α) × Int) :=
  match t with
  | .single e => .ok (flat ++ [some e], written + 1)
  | .list inits =>
    match inits with
    | [] => .ok (flat, written)
    | i0 :: irest =>
      if h : level < dims.length then
        let sub_array_size := listProdFrom dims level
        let stride := Int.tdiv sub_array_size (dims.get ⟨level, h⟩)
        if Int.tmod written stride ≠ 0 then
          .error "Initializer list not aligned with array dimension boundaries."
        else
          match flattenList (i0 :: irest) dims level flat written with
          | .error e => .error e
          | .ok (flat2, written2) =>
            let remainder := Int.tmod written2 stride
            if remainder ≠ 0 then
              let padding := stride - remainder
              .ok (flat2 ++ List.replicate padding.toNat none, written2 + padding)
            else .ok (flat2, written2)
      else .error "Excessive nesting in initializer list"

/-- Recursion over the children of an initializer list, each flattened at
the next level (the for loop of flatten_initializer). -/
def flattenList {α : Type} (ts : List (InitTree α)) (dims : List Int) (level : Nat)
    (flat : List (Option α)) (written : Int) : Except String (List (Option α) × Int) :=
  match ts with
  | [] => .ok (flat, written)
  | t :: rest =>
    match flattenInitializer t dims (level + 1) flat written with
    | .error e => .error e
    | .ok (flat2, written2) => flattenList rest dims level flat2 written2

end

/-! ## IR lowering state and the generate_ir methods for expressions.

The C++ code streams text to an ostream and keeps five global counters
(next_reg and the four statement counters) next to the symbol table
manager; GenSt gathers all of that, with the stream modelled as the list of
text lines written so far. -/

structure GenSt where
  lines : List String
  next_reg : Nat
  if_stmt_count : Nat
  lor_stmt_count : Nat
  land_stmt_count : Nat
  while_stmt_count : Nat
  mgr : SymMgr

/-- Append one output line (one sequence of stream writes ending in
std::endl). -/
def emit (s : String) (g : GenSt) : GenSt := { g with lines := g.lines ++ [s] }

/-- Mirror of the ubiquitous idiom "%" + std::to_string(next_reg++). -/
def freshReg (g : GenSt) : String × GenSt :=
  ("%" ++ decimalString g.next_reg, { g with next_reg := g.next_reg + 1 })

/-- Comma-separated join, mirroring the argument-printing loops that insert
", " between consecutive entries. -/
def joinComma : List String → String
  | [] => ""
  | [s] => s
  | s :: rest => s ++ ", " ++ joinComma rest

mutual

/-- Mirror of the generate_ir methods for expression AST nodes
(src/ast.cpp lines 442-601, 718-720 and 942-1014).  The returned string is
the IRResult value field; expressions never set is_terminated. -/
def genExpr : Expr → GenSt → Except String (String × GenSt)
  | .number n, g => .ok (intToString n, g)
  | .paren e, g => genExpr e g
  | .constExp e, g =>
    match evaluateConst e g.mgr with
    | .error msg => .error msg
    | .ok v => .ok (intToString v, g)
  | .lvalE id idxs, g =>
    match lookupSymbol g.mgr id with
    | none => .error ("Undefined variable: " ++ id)
    | some sym =>
      match idxs with
      | i0 :: irest =>
        match sym.dimensions with
        | [] => .error ("Indexing non-array variable " ++ id)
        | d0 :: _ =>
          let arr0 := "@" ++ sym.unique_name
          let is_array_param := d0 == 0
          let (arr, g) :=
            if is_array_param then
              let (load_reg, g) := freshReg g
              (load_reg, emit ("  " ++ load_reg ++ " = load " ++ arr0) g)
            else (arr0, g)
          let (run0, g) := freshReg g
          let g := emit ("  " ++ run0 ++ " = add 0, 0") g
          match genIdxLoop false (i0 :: irest) 0 sym.dimensions run0 g with
          | .error e => .error e
          | .ok (runF, g) =>
            let (ptr_reg, g) := freshReg g
            let g := emit ("  " ++ ptr_reg ++ " = " ++
              (if is_array_param then "getptr " else "getelemptr ") ++ arr ++ ", " ++ runF) g
            if (i0 :: irest).length < sym.dimensions.length then .ok (ptr_reg, g)
            else
              let (result_reg, g) := freshReg g
              .ok (result_reg, emit ("  " ++ result_reg ++ " = load " ++ ptr_reg) g)
      | [] =>
        match sym.dimensions with
        | d0 :: _ =>
          if d0 == 0 then
            let (load_reg, g) := freshReg g
            let g := emit ("  " ++ load_reg ++ " = load @" ++ sym.unique_name) g
            let (ptr_reg, g) := freshReg g
            .ok (ptr_reg, emit ("  " ++ ptr_reg ++ " = getptr " ++ load_reg ++ ", 0") g)
          else
            let (ptr_reg, g) := freshReg g
            .ok (ptr_reg, emit ("  " ++ ptr_reg ++ " = getelemptr @" ++ sym.unique_name ++ ", 0") g)
        | [] =>
          if sym.is_const then .ok (intToString sym.value, g)
          else
            let (result_reg, g) := freshReg g
            .ok (result_reg, emit ("  " ++ result_reg ++ " = load @" ++ sym.unique_name) g)
  | .unaryOp op e, g =>
    match genExpr e g with
    | .error msg => .error msg
    | .ok (operand, g) =>
      let (result_reg, g) := freshReg g
      let g :=
        if op == "+" then emit ("  " ++ result_reg ++ " = add 0, " ++ operand) g
        else if op == "-" then emit ("  " ++ result_reg ++ " = sub 0, " ++ operand) g
        else if op == "!" then emit ("  " ++ result_reg ++ " = eq 0, " ++ operand) g
        else g
      .ok (result_reg, g)
  | .call id args, g =>
    match genCallArgs args g with
    | .error msg => .error msg
    | .ok (param_values, g) =>
      match lookupSymbol g.mgr id with
      | none => .error ("Undefined function: " ++ id)
      | some func_symbol =>
        if func_symbol.kind ≠ .FUNC_SYMBOL then .error (id ++ " is not a function")
        else
          let call_instruction :=
            "call @" ++ func_symbol.unique_name ++ "(" ++ joinComma param_values ++ ")"
          if func_symbol.type ≠ "void" then
            let (result_reg, g) := freshReg g
            .ok (result_reg, emit ("  " ++ result_reg ++ " = " ++ call_instruction) g)
          else .ok ("", emit ("  " ++ call_instruction) g)
  | .mulOp op a b, g =>
    match genExpr a g with
    | .error msg => .error msg
    | .ok (lhs, g) =>
      match genExpr b g with
      | .error msg => .error msg
      | .ok (rhs, g) =>
        let (result_reg, g) := freshReg g
        let g :=
          if op == "*" then emit ("  " ++ result_reg ++ " = mul " ++ lhs ++ ", " ++ rhs) g
          else if op == "/" then emit ("  " ++ result_reg ++ " = div " ++ lhs ++ ", " ++ rhs) g
          else if op == "%" then emit ("  " ++ result_reg ++ " = mod " ++ lhs ++ ", " ++ rhs) g
          else g
        .ok (result_reg, g)
  | .addOp op a b, g =>
    match genExpr a g with
    | .error msg => .error msg
    | .ok (lhs, g) =>
      match genExpr b g with
      | .error msg => .error msg
      | .ok (rhs, g) =>
        let (result_reg, g) := freshReg g
        let g :=
          if op == "+" then emit ("  " ++ result_reg ++ " = add " ++ lhs ++ ", " ++ rhs) g
          else if op == "-" then emit ("  " ++ result_reg ++ " = sub " ++ lhs ++ ", " ++ rhs) g
          else g
        .ok (result_reg, g)
  | .relOp op a b, g =>
    match genExpr a g with
    | .error msg => .error msg
    | .ok (lhs, g) =>
      match genExpr b g with
      | .error msg => .error msg
      | .ok (rhs, g) =>
        let (result_reg, g) := freshReg g
        let g :=
          if op == "<" then emit ("  " ++ result_reg ++ " = lt " ++ lhs ++ ", " ++ rhs) g
          else if op == ">" then emit ("  " ++ result_reg ++ " = gt " ++ lhs ++ ", " ++ rhs) g
          else if op == "<=" then emit ("  " ++ result_reg ++ " = le " ++ lhs ++ ", " ++ rhs) g
          else if op == ">=" then emit ("  " ++ result_reg ++ " = ge " ++ lhs ++ ", " ++ rhs) g
          else g
        .ok (result_reg, g)
  | .eqOp op a b, g =>
    match genExpr a g with
    | .error msg => .error msg
    | .ok (lhs, g) =>
      match genExpr b g with
      | .error msg => .error msg
      | .ok (rhs, g) =>
        let (result_reg, g) := freshReg g
        let g :=
          if op == "==" then emit ("  " ++ result_reg ++ " = eq " ++ lhs ++ ", " ++ rhs) g
          else if op == "!=" then emit ("  " ++ result_reg ++ " = ne " ++ lhs ++ ", " ++ rhs) g
          else g
        .ok (result_reg, g)
  | .landOp a b, g =>
    let current_id := g.land_stmt_count
    let g := { g with land_stmt_count := current_id + 1 }
    let eval_rhs_label := "%land_eval_rhs_" ++ decimalString current_id
    let end_label := "%land_end_" ++ decimalString current_id
    let result_ptr := "@land_res_" ++ decimalString current_id
    let g := emit ("  " ++ result_ptr ++ " = alloc i32") g
    match genExpr a g with
    | .error msg => .error msg
    | .ok (lhs_val, g) =>
      let (lhs_bool, g) := freshReg g
      let g := emit ("  " ++ lhs_bool ++ " = ne 0, " ++ lhs_val) g
      let g := emit ("  store " ++ lhs_bool ++ ", " ++ result_ptr) g
      let g := emit ("  br " ++ lhs_bool ++ ", " ++ eval_rhs_label ++ ", " ++ end_label) g
      let g := emit (eval_rhs_label ++ ":") g
      match genExpr b g with
      | .error msg => .error msg
      | .ok (rhs_val, g) =>
        let (rhs_bool, g) := freshReg g
        let g := emit ("  " ++ rhs_bool ++ " = ne 0, " ++ rhs_val) g
        let g := emit ("  store " ++ rhs_bool ++ ", " ++ result_ptr) g
        let g := emit ("  jump " ++ end_label) g
        let g := emit (end_label ++ ":") g
        let (final_result_reg, g) := freshReg g
        .ok (final_result_reg, emit ("  " ++ final_result_reg ++ " = load " ++ result_ptr) g)
  | .lorOp a b, g =>
    let current_id := g.lor_stmt_count
    let g := { g with lor_stmt_count := current_id + 1 }
    let eval_rhs_label := "%lor_eval_rhs_" ++ decimalString current_id
    let end_label := "%lor_end_" ++ decimalString current_id
    let result_ptr := "@lor_res_" ++ decimalString current_id
    let g := emit ("  " ++ result_ptr ++ " = alloc i32") g
    match genExpr a g with
    | .error msg => .error msg
    | .ok (lhs_val, g) =>
      let (lhs_bool, g) := freshReg g
      let g := emit ("  " ++ lhs_bool ++ " = ne 0, " ++ lhs_val) g
      let g := emit ("  store " ++ lhs_bool ++ ", " ++ result_ptr) g
      let g := emit ("  br " ++ lhs_bool ++ ", " ++ end_label ++ ", " ++ eval_rhs_label) g
      let g := emit (eval_rhs_label ++ ":") g
      match genExpr b g with
      | .error msg => .error msg
      | .ok (rhs_val, g) =>
        let (rhs_bool, g) := freshReg g
        let g := emit ("  " ++ rhs_bool ++ " = ne 0, " ++ rhs_val) g
        let g := emit ("  store " ++ rhs_bool ++ ", " ++ result_ptr) g
        let g := emit ("  jump " ++ end_label) g
        let g := emit (end_label ++ ":") g
        let (final_result_reg, g) := freshReg g
        .ok (final_result_reg, emit ("  " ++ final_result_reg ++ " = load " ++ result_ptr) g)

/-- Left-to-right lowering of call arguments (the func_r_params loop of
UnaryExpAST::generate_ir). -/
def genCallArgs : List Expr → GenSt → Except String (List String × GenSt)
  | [], g => .ok ([], g)
  | e :: rest, g =>
    match genExpr e g with
    | .error msg => .error msg
    | .ok (v, g) =>
      match genCallArgs rest g with
      | .error msg => .error msg
      | .ok (vs, g) => .ok (v :: vs, g)

/-- Row-major index loop shared (in shape) by LValAST::generate_ir and the
ASSIGN_STMT case of StmtAST::generate_ir.  The first argument tells the
variant: the assignment loop (true) always emits the multiply, while the
rvalue LVal loop (false) skips it when the stride is not larger than one.
The Nat argument is the loop index i; the stride is the product of the
dimensions after position i. -/
def genIdxLoop (always_mul : Bool) : List Expr → Nat → List Int → String → GenSt →
    Except String (String × GenSt)
  | [], _, _, running, g => .ok (running, g)
  | e :: rest, i, dims, running, g =>
    let stride := listProdFrom dims (i + 1)
    match genExpr e g with
    | .error msg => .error msg
    | .ok (index_val, g) =>
      let (term_reg, g) :=
        if always_mul || stride > 1 then
          let (t, g) := freshReg g
          (t, emit ("  " ++ t ++ " = mul " ++ index_val ++ ", " ++ intToString stride) g)
        else (index_val, g)
      let (next_offset_reg, g) := freshReg g
      let g := emit ("  " ++ next_offset_reg ++ " = add " ++ running ++ ", " ++ term_reg) g
      genIdxLoop always_mul rest (i + 1) dims next_offset_reg g

end

/-! ## Declarations (ConstDefAST, VarDefAST and friends, src/ast.cpp
lines 639-816). -/

/-- Mirror of ConstInitValAST::evaluate_const and
InitValAST::evaluate_const: a single expression folds, an initializer list
throws. -/
def initTreeEvalConst : InitTree Expr → SymMgr → Except String Int
  | .single e, m => evaluateConst e m
  | .list _, _ => .error "Cannot evaluate initializer list in constant expression"

/-- Mirror of ConstInitValAST::generate_ir and InitValAST::generate_ir: a
single expression lowers, an initializer list yields the empty result. -/
def genInitTree : InitTree Expr → GenSt → Except String (String × GenSt)
  | .single e, g => genExpr e g
  | .list _, g => .ok ("", g)

/-- Constant evaluation of the dimension expressions of an array
declaration (the array_size_exps loops). -/
def evalDims : List Expr → SymMgr → Except String (List Int)
  | [], _ => .ok []
  | e :: rest, m =>
    match evaluateConst e m with
    | .error msg => .error msg
    | .ok d =>
      match evalDims rest m with
      | .error msg => .error msg
      | .ok ds => .ok (d :: ds)

/-- Mirror of the global-array aggregate printing loop (for index i below
total_size, print the folded flat initializer if present and non-null, else
"0").  The Nat fuel is the remaining trip count. -/
def aggElems (flat : List (Option Expr)) (m : SymMgr) (i : Nat) :
    Nat → Except String (List String)
  | 0 => .ok []
  | remaining + 1 =>
    match flat.getD i none with
    | some e =>
      match evaluateConst e m with
      | .error msg => .error msg
      | .ok v =>
        match aggElems flat m (i + 1) remaining with
        | .error msg => .error msg
        | .ok rest => .ok (intToString v :: rest)
    | none =>
      match aggElems flat m (i + 1) remaining with
      | .error msg => .error msg
      | .ok rest => .ok ("0" :: rest)

/-- Mirror of the local-array initialisation loop (getelemptr plus store
per flat position, storing zero at missing or null positions). -/
def genArrInitLoop (unique_name : String) (flat : List (Option Expr)) (i : Nat) :
    Nat → GenSt → Except String GenSt
  | 0, g => .ok g
  | remaining + 1, g =>
    let (result_reg, g) := freshReg g
    let g := emit ("  " ++ result_reg ++ " = getelemptr @" ++ unique_name ++ ", " ++
      decimalString i) g
    match flat.getD i none with
    | some e =>
      match genExpr e g with
      | .error msg => .error msg
      | .ok (v, g) =>
        genArrInitLoop unique_name flat (i + 1) remaining
          (emit ("  store " ++ v ++ ", " ++ result_reg) g)
    | none =>
      genArrInitLoop unique_name flat (i + 1) remaining
        (emit ("  store 0, " ++ result_reg) g)

/-- Data of a VarDefAST node. -/
structure VarDefData where
  ident : String
  array_size_exps : List Expr
  init_val : Option (InitTree Expr)

/-- Data of a ConstDefAST node. -/
structure ConstDefData where
  ident : String
  array_size_exps : List Expr
  const_init_val : Option (InitTree Expr)

/-- Mirror of VarDefAST::generate_ir (src/ast.cpp lines 740-810).  Note
that the bool result of add_symbol is ignored, exactly as in the source. -/
def genVarDef (d : VarDefData) (g : GenSt) : Except String GenSt :=
  let sym0 : SymbolInfo := ⟨d.ident, "", 0, false, .VAR_SYMBOL, "i32", []⟩
  match d.array_size_exps with
  | _ :: _ =>
    match evalDims d.array_size_exps g.mgr with
    | .error msg => .error msg
    | .ok dims =>
      let total_size := listProdFrom dims 0
      match addSymbol { sym0 with dimensions := dims } g.mgr with
      | none => .error "No symbol table to add symbol"
      | some (_, sym, mgr) =>
        let g := { g with mgr := mgr }
        match (match d.init_val with
               | some iv => flattenInitializer iv dims 0 [] 0
               | none => .ok ([], 0)) with
        | .error msg => .error msg
        | .ok (flat_inits, _) =>
          if isGlobalScope g.mgr then
            match d.init_val with
            | some _ =>
              match aggElems flat_inits g.mgr 0 total_size.toNat with
              | .error msg => .error msg
              | .ok elems =>
                let g := emit ("global @" ++ sym.unique_name ++ " = alloc [i32, " ++
                  intToString total_size ++ "], \x7b" ++ joinComma elems ++ "\x7d") g
                .ok (emit "" g)
            | none =>
              let g := emit ("global @" ++ sym.unique_name ++ " = alloc [i32, " ++
                intToString total_size ++ "], zeroinit") g
              .ok (emit "" g)
          else
            let g := emit ("  @" ++ sym.unique_name ++ " = alloc [i32, " ++
              intToString total_size ++ "]") g
            match d.init_val with
            | some _ => genArrInitLoop sym.unique_name flat_inits 0 total_size.toNat g
            | none => .ok g
  | [] =>
    match addSymbol sym0 g.mgr with
    | none => .error "No symbol table to add symbol"
    | some (_, sym, mgr) =>
      let g := { g with mgr := mgr }
      if isGlobalScope g.mgr then
        match d.init_val with
        | some iv =>
          match initTreeEvalConst iv g.mgr with
          | .error msg => .error msg
          | .ok v =>
            .ok (emit ""
              (emit ("global @" ++ sym.unique_name ++ " = alloc i32, " ++ intToString v) g))
        | none =>
          .ok (emit "" (emit ("global @" ++ sym.unique_name ++ " = alloc i32, zeroinit") g))
      else
        let g := emit ("  @" ++ sym.unique_name ++ " = alloc i32") g
        match d.init_val with
        | some iv =>
          match genInitTree iv g with
          | .error msg => .error msg
          | .ok (store_val, g) =>
            .ok (emit ("  store " ++ store_val ++ ", @" ++ sym.unique_name) g)
        | none => .ok g

/-- Mirror of VarDeclAST::generate_ir: lower each definition in order. -/
def genVarDefs : List VarDefData → GenSt → Except String GenSt
  | [], g => .ok g
  | d :: rest, g =>
    match genVarDef d g with
    | .error msg => .error msg
    | .ok g => genVarDefs rest g

/-- Mirror of ConstDefAST::generate_ir (src/ast.cpp lines 655-711).  The
scalar case dereferences const_init_val unconditionally in C++ (the grammar
guarantees it); a missing initializer is modelled as an error. -/
def genConstDef (d : ConstDefData) (g : GenSt) : Except String GenSt :=
  match d.array_size_exps with
  | _ :: _ =>
    match evalDims d.array_size_exps g.mgr with
    | .error msg => .error msg
    | .ok dims =>
      let total_size := listProdFrom dims 0
      match addSymbol ⟨d.ident, "", 0, true, .VAR_SYMBOL, "*i32", dims⟩ g.mgr with
      | none => .error "No symbol table to add symbol"
      | some (_, sym, mgr) =>
        let g := { g with mgr := mgr }
        match (match d.const_init_val with
               | some iv => flattenInitializer iv dims 0 [] 0
               | none => .ok ([], 0)) with
        | .error msg => .error msg
        | .ok (flat_inits, _) =>
          if isGlobalScope g.mgr then
            match d.const_init_val with
            | some _ =>
              match aggElems flat_inits g.mgr 0 total_size.toNat with
              | .error msg => .error msg
              | .ok elems =>
                let g := emit ("global @" ++ sym.unique_name ++ " = alloc [i32, " ++
                  intToString total_size ++ "], \x7b" ++ joinComma elems ++ "\x7d") g
                .ok (emit "" g)
            | none =>
              let g := emit ("global @" ++ sym.unique_name ++ " = alloc [i32, " ++
                intToString total_size ++ "], zeroinit") g
              .ok (emit "" g)
          else
            let g := emit ("  @" ++ sym.unique_name ++ " = alloc [i32, " ++
              intToString total_size ++ "]") g
            match d.const_init_val with
            | some _ => genArrInitLoop sym.unique_name flat_inits 0 total_size.toNat g
            | none => .ok g
  | [] =>
    match d.const_init_val with
    | none => .error "missing constant initializer"
    | some iv =>
      match initTreeEvalConst iv g.mgr with
      | .error msg => .error msg
      | .ok val =>
        match addSymbol ⟨d.ident, "", val, true, .VAR_SYMBOL, "i32", []⟩ g.mgr with
        | none => .error "No symbol table to add symbol"
        | some (_, _, mgr) => .ok { g with mgr := mgr }

/-- Mirror of ConstDeclAST::generate_ir: lower each definition in order. -/
def genConstDefs : List ConstDefData → GenSt → Except String GenSt
  | [], g => .ok g
  | d :: rest, g =>
    match genConstDef d g with
    | .error msg => .error msg
    | .ok g => genConstDefs rest g

/-! ## Statements and blocks (StmtAST and BlockAST, src/ast.cpp
lines 307-440). -/

mutual

/-- Mirror of the StmtType variants of StmtAST. -/
inductive Stmt where
  | assign (lval_ident : String) (lval_idxs : List Expr) (rhs : Expr)
  | exprStmt (e : Option Expr)
  | emptyStmt
  | blockStmt (items : List BlockItem)
  | ifStmt (cond : Expr) (then_stmt : Stmt) (else_stmt : Option Stmt)
  | whileStmt (cond : Expr) (body : Stmt)
  | breakStmt
  | continueStmt
  | returnStmt (e : Option Expr)

/-- Mirror of a block item: a statement or a declaration (DeclAST holding
either a const or a var declaration). -/
inductive BlockItem where
  | stmtItem (s : Stmt)
  | constDeclItem (defs : List ConstDefData)
  | varDeclItem (defs : List VarDefData)

end

mutual

/-- Mirror of StmtAST::generate_ir (src/ast.cpp lines 321-440).  The Bool
result is the is_terminated flag of the returned IRResult. -/
def genStmt : Stmt → GenSt → Except String (Bool × GenSt)
  | .returnStmt oe, g =>
    match oe with
    | some e =>
      match genExpr e g with
      | .error msg => .error msg
      | .ok (ret_val, g) => .ok (true, emit ("  ret " ++ ret_val) g)
    | none => .ok (true, emit "  ret" g)
  | .blockStmt items, g =>
    let g := { g with mgr := enterScope g.mgr }
    match genBlockItems items g with
    | .error msg => .error msg
    | .ok (terminated, g) =>
      match exitScope g.mgr with
      | none => .error "No symbol table to exit"
      | some mgr => .ok (terminated, { g with mgr := mgr })
  | .assign id idxs rhs, g =>
    match genExpr rhs g with
    | .error msg => .error msg
    | .ok (store_val, g) =>
      match lookupSymbol g.mgr id with
      | none => .ok (false, g)
      | some sym =>
        match idxs with
        | i0 :: irest =>
          match sym.dimensions with
          | [] => .ok (false, g)
          | d0 :: _ =>
            if sym.dimensions.length ≠ (i0 :: irest).length then
              .error ("Incorrect number of dimensions for array " ++ id)
            else
              let arr0 := "@" ++ sym.unique_name
              let is_array_param := d0 == 0
              let (arr, g) :=
                if is_array_param then
                  let (load_reg, g) := freshReg g
                  (load_reg, emit ("  " ++ load_reg ++ " = load " ++ arr0) g)
                else (arr0, g)
              let (run0, g) := freshReg g
              let g := emit ("  " ++ run0 ++ " = add 0, 0") g
              match genIdxLoop true (i0 :: irest) 0 sym.dimensions run0 g with
              | .error msg => .error msg
              | .ok (final_offset_reg, g) =>
                let (ptr_reg, g) := freshReg g
                let g := emit ("  " ++ ptr_reg ++ " = " ++
                  (if is_array_param then "getptr " else "getelemptr ") ++ arr ++ ", " ++
                  final_offset_reg) g
                .ok (false, emit ("  store " ++ store_val ++ ", " ++ ptr_reg) g)
        | [] => .ok (false, emit ("  store " ++ store_val ++ ", @" ++ sym.unique_name) g)
  | .exprStmt oe, g =>
    match oe with
    | some e =>
      match genExpr e g with
      | .error msg => .error msg
      | .ok (_, g) => .ok (false, g)
    | none => .ok (false, g)
  | .emptyStmt, g => .ok (false, g)
  | .ifStmt cond then_stmt else_stmt, g =>
    let current_if_id := g.if_stmt_count
    let g := { g with if_stmt_count := current_if_id + 1 }
    let then_label := "then_" ++ decimalString current_if_id
    let else_label := "else_" ++ decimalString current_if_id
    let endif_label := "if_end_" ++ decimalString current_if_id
    match genExpr cond g with
    | .error msg => .error msg
    | .ok (cond_val, g) =>
      let g := emit ("  br " ++ cond_val ++ ", %" ++ then_label ++ ", %" ++
        (match else_stmt with | some _ => else_label | none => endif_label)) g
      let g := emit ("%" ++ then_label ++ ":") g
      match genStmt then_stmt g with
      | .error msg => .error msg
      | .ok (if_terminated, g) =>
        let g := if if_terminated then g else emit ("  jump %" ++ endif_label) g
        match (match else_stmt with
               | none => Except.ok (false, g)
               | some es =>
                 let g := emit ("%" ++ else_label ++ ":") g
                 match genStmt es g with
                 | .error msg => .error msg
                 | .ok (else_terminated, g) =>
                   .ok (else_terminated,
                     if else_terminated then g else emit ("  jump %" ++ endif_label) g)) with
        | .error msg => .error msg
        | .ok (else_terminated, g) =>
          let terminated := if_terminated &&
            (match else_stmt with | some _ => else_terminated | none => false)
          let g := if terminated then g else emit ("%" ++ endif_label ++ ":") g
          .ok (terminated, g)
  | .whileStmt cond body, g =>
    let current_while_id := g.while_stmt_count
    let g := { g with while_stmt_count := current_while_id + 1 }
    let entry_label := "while_entry_" ++ decimalString current_while_id
    let body_label := "while_body_" ++ decimalString current_while_id
    let endwhile_label := "while_end_" ++ decimalString current_while_id
    let g := emit ("  jump %" ++ entry_label) g
    let g := emit ("%" ++ entry_label ++ ":") g
    match genExpr cond g with
    | .error msg => .error msg
    | .ok (cond_val, g) =>
      let g := emit ("  br " ++ cond_val ++ ", %" ++ body_label ++ ", %" ++ endwhile_label) g
      let g := emit ("%" ++ body_label ++ ":") g
      let g := { g with mgr := enterLoop entry_label endwhile_label g.mgr }
      match genStmt body g with
      | .error msg => .error msg
      | .ok (body_terminated, g) =>
        match exitLoop g.mgr with
        | none => .error "No loop to exit"
        | some mgr =>
          let g := { g with mgr := mgr }
          let g := if body_terminated then g else emit ("  jump %" ++ entry_label) g
          .ok (false, emit ("%" ++ endwhile_label ++ ":") g)
  | .breakStmt, g =>
    match getBreakLabel g.mgr with
    | none => .error "No loop to get break label"
    | some l => .ok (true, emit ("  jump %" ++ l) g)
  | .continueStmt, g =>
    match getContinueLabel g.mgr with
    | none => .error "No loop to get continue label"
    | some l => .ok (true, emit ("  jump %" ++ l) g)

/-- Mirror of the item loop of BlockAST::generate_ir: lower the items in
order and stop early after the first terminated one. -/
def genBlockItems : List BlockItem → GenSt → Except String (Bool × GenSt)
  | [], g => .ok (false, g)
  | item :: rest, g =>
    match (match item with
           | .stmtItem s => genStmt s g
           | .constDeclItem defs =>
             match genConstDefs defs g with
             | .error msg => Except.error msg
             | .ok g => .ok (false, g)
           | .varDeclItem defs =>
             match genVarDefs defs g with
             | .error msg => Except.error msg
             | .ok g => .ok (false, g)) with
    | .error msg => .error msg
    | .ok (terminated, g) =>
      if terminated then .ok (true, g) else genBlockItems rest g

end

/-- Mirror of BlockAST::generate_ir: a fresh scope around the items.  The
BLOCK_STMT case of genStmt repeats this body so that the mutual recursion
stays structural. -/
def genBlock (items : List BlockItem) (g : GenSt) : Except String (Bool × GenSt) :=
  let g := { g with mgr := enterScope g.mgr }
  match genBlockItems items g with
  | .error msg => .error msg
  | .ok (terminated, g) =>
    match exitScope g.mgr with
    | none => .error "No symbol table to exit"
    | some mgr => .ok (terminated, { g with mgr := mgr })

/-! ## Function definitions and the compilation unit (FuncDefAST and
CompUnitAST, src/ast.cpp lines 203-301). -/

/-- Mirror of BTypeAST::generate_ir. -/
def btypeIRString (t : String) : String :=
  if t == "int" then "i32" else if t == "void" then "void" else "unknown"

/-- Data of a FuncFParamAST node. -/
structure FuncFParamData where
  btype : String
  ident : String
  is_array : Bool
  array_size_exps : List Expr

/-- Data of a FuncDefAST node; func_type is the type string of its
BTypeAST. -/
structure FuncDefData where
  func_type : String
  ident : String
  params : List FuncFParamData
  block : List BlockItem

/-- Mirror of the parameter loop of FuncDefAST::generate_ir: bind each
parameter symbol (array parameters get a leading zero dimension and
pointer type) and produce the (unique_name, type) pairs together with the
parameter text fragments of the header line. -/
def processParams : List FuncFParamData → SymMgr →
    Except String (List (String × String) × List String × SymMgr)
  | [], m => .ok ([], [], m)
  | p :: rest, m =>
    let ptype := if p.is_array then "*i32" else "i32"
    match (if p.is_array then
             match evalDims p.array_size_exps m with
             | .error msg => Except.error msg
             | .ok ds => .ok ((0 : Int) :: ds)
           else .ok []) with
    | .error msg => .error msg
    | .ok dims =>
      match addSymbol ⟨p.ident, "", 0, false, .VAR_SYMBOL, ptype, dims⟩ m with
      | none => .error "No symbol table to add symbol"
      | some (_, param_symbol, m) =>
        let text := "%" ++ param_symbol.unique_name ++ ": " ++
          (if p.is_array then "*" else "") ++ btypeIRString p.btype
        match processParams rest m with
        | .error msg => .error msg
        | .ok (pts, texts, m) =>
          .ok ((param_symbol.unique_name, ptype) :: pts, text :: texts, m)

/-- Mirror of the parameter promotion loop: alloc plus store per
parameter. -/
def paramAllocLines : List (String × String) → GenSt → GenSt
  | [], g => g
  | (u, t) :: rest, g =>
    paramAllocLines rest
      (emit ("  store %" ++ u ++ ", @" ++ u) (emit ("  @" ++ u ++ " = alloc " ++ t) g))

/-- Default return lines appended by FuncDefAST::generate_ir when the body
is not terminated (src/ast.cpp lines 290-297). -/
def defaultRetLines (func_type : String) (terminated : Bool) : List String :=
  if terminated then [] else if func_type ≠ "void" then ["  ret 0"] else ["  ret"]

/-- Append several output lines at once. -/
def appendLines (ls : List String) (g : GenSt) : GenSt := { g with lines := g.lines ++ ls }

/-- Phase of FuncDefAST::generate_ir before the body is lowered: counter
resets, function symbol declaration (the bool result of add_symbol is
ignored, as in the source), header line, entry label, and parameter
promotion. -/
def genFuncDefProlog (f : FuncDefData) (g : GenSt) : Except String GenSt :=
  let g := { g with next_reg := 0, if_stmt_count := 0, lor_stmt_count := 0,
                    land_stmt_count := 0, while_stmt_count := 0,
                    mgr := clearSymbolCounter g.mgr }
  match addSymbol ⟨f.ident, "", 0, false, .FUNC_SYMBOL, f.func_type, []⟩ g.mgr with
  | none => .error "No symbol table to add symbol"
  | some (_, fsym, mgr) =>
    let mgr := enterScope mgr
    match processParams f.params mgr with
    | .error msg => .error msg
    | .ok (param_types, ptexts, mgr) =>
      let header := "fun @" ++ fsym.unique_name ++ "(" ++ joinComma ptexts ++ ")" ++
        (if f.func_type ≠ "void" then ": " ++ btypeIRString f.func_type else "") ++ " \x7b"
      let g := { g with mgr := mgr }
      let g := emit header g
      let g := emit "%entry:" g
      .ok (paramAllocLines param_types g)

/-- Mirror of FuncDefAST::generate_ir (src/ast.cpp lines 234-301): prolog,
body block, default return when the body is not terminated, closing brace,
blank line, scope exit. -/
def genFuncDef (f : FuncDefData) (g : GenSt) : Except String GenSt :=
  match genFuncDefProlog f g with
  | .error msg => .error msg
  | .ok g =>
    match genBlock f.block g with
    | .error msg => .error msg
    | .ok (terminated, g) =>
      let g := appendLines (defaultRetLines f.func_type terminated) g
      let g := emit "\x7d" g
      let g := emit "" g
      match exitScope g.mgr with
      | none => .error "No symbol table to exit"
      | some mgr => .ok { g with mgr := mgr }

/-- Library procedures registered by CompUnitAST::generate_ir. -/
def libFuncs : List (String × String) :=
  [("getint", "i32"), ("getch", "i32"), ("getarray", "i32"), ("putint", "void"),
   ("putch", "void"), ("putarray", "void"), ("starttime", "void"), ("stoptime", "void")]

/-- Registration loop for the library procedures (the result of add_symbol
is ignored, as in the source). -/
def addLibSymbols : List (String × String) → SymMgr → SymMgr
  | [], m => m
  | (n, t) :: rest, m =>
    match addSymbol ⟨n, "", 0, false, .FUNC_SYMBOL, t, []⟩ m with
    | none => addLibSymbols rest m
    | some (_, _, m2) => addLibSymbols rest m2

/-- Lines of the raw-string preamble printed by CompUnitAST::generate_ir. -/
def preambleLines : List String :=
  ["decl @getint(): i32", "decl @getch(): i32", "decl @getarray(*i32): i32",
   "decl @putint(i32)", "decl @putch(i32)", "decl @putarray(i32, *i32)",
   "decl @starttime()", "decl @stoptime()", ""]

/-- Top-level item of a CompUnitAST: a function definition or a
declaration. -/
inductive TopItem where
  | funcItem (f : FuncDefData)
  | constDeclItem (defs : List ConstDefData)
  | varDeclItem (defs : List VarDefData)

/-- Item loop of CompUnitAST::generate_ir. -/
def genTopItems : List TopItem → GenSt → Except String GenSt
  | [], g => .ok g
  | .funcItem f :: rest, g =>
    match genFuncDef f g with
    | .error msg => .error msg
    | .ok g => genTopItems rest g
  | .constDeclItem defs :: rest, g =>
    match genConstDefs defs g with
    | .error msg => .error msg
    | .ok g => genTopItems rest g
  | .varDeclItem defs :: rest, g =>
    match genVarDefs defs g with
    | .error msg => .error msg
    | .ok g => genTopItems rest g

/-- Mirror of operator<< on a CompUnitAST: fresh manager and counters,
preamble text, library symbols, then the top-level items. -/
def genCompUnit (items : List TopItem) : Except String GenSt :=
  genTopItems items ⟨preambleLines, 0, 0, 0, 0, 0, addLibSymbols libFuncs SymMgr.init⟩

/-! ## Driver (main, src/main.cpp lines 394-427).  Parsing and the Koopa
IR library are external collaborators; the driver model maps the mode
string to the content left in the freshly opened (hence truncated) output
file and the process exit code, given the text each branch would write. -/

/-- Observable outcome of a driver run: final output-file content and exit
code. -/
structure DriverResult where
  output_file_content : String
  exit_code : Nat
deriving DecidableEq

/-- Mirror of the mode dispatch of main, after a successful parse: the
-koopa branch writes the lowered IR text, the -riscv branch writes the
generated assembly, any other mode writes nothing; all paths return 0. -/
def runDriver (mode : String) (irText asmText : String) : DriverResult :=
  if mode == "-koopa" then ⟨irText, 0⟩
  else if mode == "-riscv" then ⟨asmText, 0⟩
  else ⟨"", 0⟩

/-! ## Frame planner (get_array_size and CalculateStackSize, src/main.cpp
lines 44-90).  A raw Koopa instruction is abstracted to the data the
planner reads: its kind tag (call with argument count, alloc, or anything
else) and its type. -/

/-- Mirror of the koopa_raw_type shapes consulted by get_array_size and
the unit check. -/
inductive KoopaType where
  | int32
  | unit
  | array (base : KoopaType) (len : Nat)
  | pointer (base : KoopaType)
deriving DecidableEq

/-- Mirror of get_array_size (src/main.cpp lines 44-52). -/
def get_array_size : KoopaType → Int
  | .array base len => (len : Int) * get_array_size base
  | .pointer base => get_array_size base
  | _ => 4

/-- Kind tag of a raw instruction, with the data the planner reads. -/
inductive KInstKind where
  | callK (argc : Nat)
  | allocK
  | otherK
deriving DecidableEq

/-- Raw instruction as seen by the frame planner. -/
structure KInst where
  kind : KInstKind
  ty : KoopaType
deriving DecidableEq

/-- Raw function body: the instruction lists of its basic blocks. -/
abbrev KFunc := List (List KInst)

/-- First scan of CalculateStackSize: maximum count of stack-passed
outgoing arguments, max over calls of argc minus eight, never below the
zero start value. -/
def stackParamNum (f : KFunc) : Int :=
  f.foldl (fun acc bb => bb.foldl (fun acc i =>
    match i.kind with
    | .callK argc => max acc ((argc : Int) - 8)
    | _ => acc) acc) 0

/-- First scan of CalculateStackSize: is there any call instruction. -/
def isRaSaved (f : KFunc) : Bool :=
  f.any (fun bb => bb.any (fun i =>
    match i.kind with
    | .callK _ => true
    | _ => false))

/-- Second scan of CalculateStackSize: bytes reserved for slots, walking
the instructions in order (allocs reserve their full type size, any other
instruction of non-unit type reserves four bytes). -/
def reservedScan (f : KFunc) : Int :=
  f.foldl (fun acc bb => bb.foldl (fun acc i =>
    match i.kind with
    | .allocK => acc + get_array_size i.ty
    | _ => match i.ty with
           | .unit => acc
           | _ => acc + 4) acc) 0

/-- Mirror of CalculateStackSize (src/main.cpp lines 54-90), final value of
the static stack_size variable.  The per-instruction offset map, which the
size computation does not read, is elided.  C++ integer division truncates
toward zero. -/
def CalculateStackSize (f : KFunc) : Int :=
  Int.tdiv
    (reservedScan f + (if isRaSaved f then 1 else 0) * 4 + stackParamNum f * 4 + 15) 16 * 16

/-! ## RISC-V emission helper, prologue and epilogue (src/main.cpp
lines 92-100 and 126-160). -/

/-- Structured form of the assembly instructions these emission paths
write: a memory access op reg, offset(base), a li pseudo-instruction, an
addi with immediate, or a three-register add. -/
inductive AsmInst where
  | access (op : String) (data_reg : String) (offset : Int) (base : String)
  | li (rd : String) (imm : Int)
  | addi (rd rs : String) (imm : Int)
  | addr (rd rs1 rs2 : String)
deriving DecidableEq

/-- Mirror of EmitSPRelativeAccess (src/main.cpp lines 92-100). -/
def EmitSPRelativeAccess (inst data_reg : String) (offset : Int) (temp_reg : String) :
    List AsmInst :=
  if -2048 ≤ offset ∧ offset ≤ 2047 then [.access inst data_reg offset "sp"]
  else [.li temp_reg offset, .addr temp_reg "sp" temp_reg, .access inst data_reg 0 temp_reg]

/-- Prologue of Visit(koopa_raw_function_t) (src/main.cpp lines 135-145):
the sp adjustment followed by the ra spill when a call exists. -/
def genPrologue (stack_size : Int) (is_ra_saved : Bool) : List AsmInst :=
  (if 0 < stack_size then
     (if stack_size ≤ 2047 then [.addi "sp" "sp" (-stack_size)]
      else [.li "t0" (-stack_size), .addr "sp" "sp" "t0"])
   else []) ++
  (if is_ra_saved then EmitSPRelativeAccess "sw" "ra" (stack_size - 4) "t0" else [])

/-- Epilogue of Visit(koopa_raw_function_t) (src/main.cpp lines 147-159):
the ra reload when a call exists, followed by the sp restoration (the final
ret carries no immediate and is omitted). -/
def genEpilogue (stack_size : Int) (is_ra_saved : Bool) : List AsmInst :=
  (if is_ra_saved then EmitSPRelativeAccess "lw" "ra" (stack_size - 4) "t0" else []) ++
  (if 0 < stack_size then
     (if stack_size ≤ 2047 then [.addi "sp" "sp" stack_size]
      else [.li "t0" stack_size, .addr "sp" "sp" "t0"])
   else [])

/-- Abstract interpretation tracking the net change applied to sp and the
value materialised in t0, used to state what total stack adjustment a
prologue or epilogue performs. -/
def spStep : Int × Int → AsmInst → Int × Int
  | (d, t0), .li rd imm => if rd = "t0" then (d, imm) else (d, t0)
  | (d, t0), .addi rd rs imm => if rd = "sp" ∧ rs = "sp" then (d + imm, t0) else (d, t0)
  | (d, t0), .addr rd rs1 rs2 =>
    if rd = "sp" ∧ rs1 = "sp" ∧ rs2 = "t0" then (d + t0, t0) else (d, t0)
  | (d, t0), .access _ _ _ _ => (d, t0)

/-- Net sp adjustment performed by an instruction sequence. -/
def spDelta (l : List AsmInst) : Int := (l.foldl spStep (0, 0)).1

/-- Immediate-range discipline: every memory-access displacement and every
addi immediate fits the 12-bit signed range; li is the materialisation
pseudo-instruction (expanded by the assembler) and register-register add
carries no immediate. -/
def immOK : AsmInst → Prop
  | .access _ _ offset _ => -2048 ≤ offset ∧ offset ≤ 2047
  | .addi _ _ imm => -2048 ≤ imm ∧ imm ≤ 2047
  | .li _ _ => True
  | .addr _ _ _ => True

/-! ## Executable trace semantics for the emitted short-circuit IR
(LAndExpAST::generate_ir and LOrExpAST::generate_ir, src/ast.cpp
lines 538-601).  The emitted text is modelled as a flat instruction list in
which label lines are markers; a branch or jump moves the program counter
to the first occurrence of the target label.  Sub-expression code is an
arbitrary instruction list. -/

/-- Structured form of the IR lines these two methods emit, plus markers:
labelI is a label line, genericI stands for a line emitted for a
sub-expression that is none of the control or memory forms below. -/
inductive IRInst where
  | allocI (name : String)
  | neZero (dst : String) (src : String)
  | storeI (src : String) (ptr : String)
  | brI (cond : String) (ltrue : String) (lfalse : String)
  | jumpI (l : String)
  | labelI (l : String)
  | loadI (dst : String) (ptr : String)
  | genericI (tag : Nat)
deriving DecidableEq

/-- Machine state of the trace semantics: a program counter into the flat
instruction list, the temporary-register file and the memory cells of the
allocated slots, each addressed by name. -/
structure IRState where
  pc : Nat
  regs : String → Int
  mem : String → Int

/-- Pointwise update of a name-indexed store. -/
def upd (f : String → Int) (k : String) (v : Int) : String → Int :=
  fun x => if x = k then v else f x

/-- Position of the first occurrence of a label line. -/
def findLabel (prog : List IRInst) (l : String) : Nat :=
  prog.findIdx (fun i => i == IRInst.labelI l)

/-- One step of the trace semantics; none once the counter leaves the
program.  The ne-with-zero instruction writes one when its source is
non-zero; a branch goes to its first label when the condition is non-zero
and to its second otherwise, as br does in Koopa IR. -/
def irStep (prog : List IRInst) (s : IRState) : Option IRState :=
  match prog[s.pc]? with
  | none => none
  | some i =>
    match i with
    | .allocI _ => some { s with pc := s.pc + 1 }
    | .neZero dst src =>
      some { s with regs := upd s.regs dst (if s.regs src ≠ 0 then 1 else 0), pc := s.pc + 1 }
    | .storeI src ptr => some { s with mem := upd s.mem ptr (s.regs src), pc := s.pc + 1 }
    | .brI cond ltrue lfalse =>
      some { s with pc := findLabel prog (if s.regs cond ≠ 0 then ltrue else lfalse) }
    | .jumpI l => some { s with pc := findLabel prog l }
    | .labelI _ => some { s with pc := s.pc + 1 }
    | .loadI dst ptr => some { s with regs := upd s.regs dst (s.mem ptr), pc := s.pc + 1 }
    | .genericI _ => some { s with pc := s.pc + 1 }

/-- Run the trace semantics for at most the given number of steps,
collecting the list of program-counter values of the executed
instructions. -/
def irRun (prog : List IRInst) : IRState → Nat → List Nat × IRState
  | s, 0 => ([], s)
  | s, fuel + 1 =>
    match irStep prog s with
    | none => ([], s)
    | some s2 =>
      let r := irRun prog s2 fuel
      (s.pc :: r.1, r.2)

/-- Structured form of the instruction sequence emitted by
LAndExpAST::generate_ir for a && b, with the code lowered for the two
sub-expressions abstracted as instruction lists: result slot alloc, lhs
code, booleanisation of the lhs value into register r1, store to the slot,
branch (true to the rhs block, false to the end), rhs block label, rhs
code, booleanisation of the rhs value into register r2, store, jump to the
end, end label, load of the slot into register r2+1. -/
def genLAndIR (current_id : Nat) (lhs : List IRInst) (lhs_val : String) (r1 : Nat)
    (rhs : List IRInst) (rhs_val : String) (r2 : Nat) : List IRInst :=
  let eval_rhs_label := "%land_eval_rhs_" ++ decimalString current_id
  let end_label := "%land_end_" ++ decimalString current_id
  let result_ptr := "@land_res_" ++ decimalString current_id
  let lhs_bool := "%" ++ decimalString r1
  let rhs_bool := "%" ++ decimalString r2
  let final_result_reg := "%" ++ decimalString (r2 + 1)
  [.allocI result_ptr] ++ lhs ++
  [.neZero lhs_bool lhs_val, .storeI lhs_bool result_ptr,
   .brI lhs_bool eval_rhs_label end_label, .labelI eval_rhs_label] ++ rhs ++
  [.neZero rhs_bool rhs_val, .storeI rhs_bool result_ptr, .jumpI end_label,
   .labelI end_label, .loadI final_result_reg result_ptr]

/-- Structured form of the instruction sequence emitted by
LOrExpAST::generate_ir for a || b; identical to the conjunction shape
except that the branch goes to the end block when the lhs is true and to
the rhs block when it is false. -/
def genLOrIR (current_id : Nat) (lhs : List IRInst) (lhs_val : String) (r1 : Nat)
    (rhs : List IRInst) (rhs_val : String) (r2 : Nat) : List IRInst :=
  let eval_rhs_label := "%lor_eval_rhs_" ++ decimalString current_id
  let end_label := "%lor_end_" ++ decimalString current_id
  let result_ptr := "@lor_res_" ++ decimalString current_id
  let lhs_bool := "%" ++ decimalString r1
  let rhs_bool := "%" ++ decimalString r2
  let final_result_reg := "%" ++ decimalString (r2 + 1)
  [.allocI result_ptr] ++ lhs ++
  [.neZero lhs_bool lhs_val, .storeI lhs_bool result_ptr,
   .brI lhs_bool end_label eval_rhs_label, .labelI eval_rhs_label] ++ rhs ++
  [.neZero rhs_bool rhs_val, .storeI rhs_bool result_ptr, .jumpI end_label,
   .labelI end_label, .loadI final_result_reg result_ptr]

/-- Lines of a lowering result, empty on error; used to state facts about
the text a whole-program lowering leaves in the output stream. -/
def linesOf (r : Except String GenSt) : List String :=
  match r with
  | .ok st => st.lines
  | .error _ => []

/-! ## Theorems -/

/-- C10: a driver invocation whose mode is neither -koopa nor -riscv still
runs to completion: the output file is opened and truncated but nothing is
written to it, and the exit code is zero rather than an unknown-mode
error. -/
theorem C10_unknown_mode_silent_success (mode irText asmText : String)
    (h1 : mode ≠ "-koopa") (h2 : mode ≠ "-riscv") :
    runDriver mode irText asmText = ⟨"", 0⟩ := by
  simp [runDriver, h1, h2]

/-- Witness for C10 at the concrete mode -x. -/
theorem C10_unknown_mode_silent_success_witness :
    runDriver "-x" "ir text" "asm text" = ⟨"", 0⟩ :=
  C10_unknown_mode_silent_success "-x" "ir text" "asm text" (by decide) (by decide)

theorem emitsp_immOK (inst dr : String) (off : Int) (tr : String) :
    ∀ a ∈ EmitSPRelativeAccess inst dr off tr, immOK a := by
  intro a ha
  unfold EmitSPRelativeAccess at ha
  split at ha
  · next h =>
    simp only [List.mem_singleton] at ha
    subst ha
    exact h
  · next h =>
    simp only [List.mem_cons, List.mem_singleton, List.not_mem_nil, or_false] at ha
    rcases ha with rfl | rfl | rfl
    · trivial
    · trivial
    · exact ⟨by norm_num, by norm_num⟩

theorem prologue_immOK (s : Int) (ra : Bool) :
    ∀ a ∈ genPrologue s ra, immOK a := by
  intro a ha
  unfold genPrologue at ha
  rcases List.mem_append.mp ha with h | h
  · by_cases h0 : 0 < s
    · by_cases h1 : s ≤ 2047
      · simp only [if_pos h0, if_pos h1, List.mem_singleton] at h
        subst h
        exact ⟨by omega, by omega⟩
      · simp only [if_pos h0, if_neg h1, List.mem_cons, List.not_mem_nil, or_false] at h
        rcases h with rfl | rfl
        · trivial
        · trivial
    · simp [if_neg h0] at h
  · by_cases hra : ra
    · rw [if_pos hra] at h
      exact emitsp_immOK _ _ _ _ a h
    · simp [hra] at h

theorem epilogue_immOK (s : Int) (ra : Bool) :
    ∀ a ∈ genEpilogue s ra, immOK a := by
  intro a ha
  unfold genEpilogue at ha
  rcases List.mem_append.mp ha with h | h
  · by_cases hra : ra
    · rw [if_pos hra] at h
      exact emitsp_immOK _ _ _ _ a h
    · simp [hra] at h
  · by_cases h0 : 0 < s
    · by_cases h1 : s ≤ 2047
      · simp only [if_pos h0, if_pos h1, List.mem_singleton] at h
        subst h
        exact ⟨by omega, by omega⟩
      · simp only [if_pos h0, if_neg h1, List.mem_cons, List.not_mem_nil, or_false] at h
        rcases h with rfl | rfl
        · trivial
        · trivial
    · simp [if_neg h0] at h

/-- C9: the sp-relative access helper emits a single op reg, offset(sp)
when the offset fits the 12-bit signed range, and otherwise materialises
the offset with li into the temporary, adds sp, and accesses at
displacement zero; no emitted instruction of the helper, prologue, or
epilogue carries a memory-access or addi immediate outside that range. -/
theorem C9_sp_relative_access (inst dr : String) (off : Int) (tr : String)
    (s : Int) (ra : Bool) (hin1 : -2048 ≤ off) (hin2 : off ≤ 2047)
    (hout : Int) (hout1 : hout < -2048 ∨ 2047 < hout) :
    EmitSPRelativeAccess inst dr off tr = [.access inst dr off "sp"] ∧
    EmitSPRelativeAccess inst dr hout tr =
      [.li tr hout, .addr tr "sp" tr, .access inst dr 0 tr] ∧
    (∀ a ∈ EmitSPRelativeAccess inst dr off tr, immOK a) ∧
    (∀ a ∈ EmitSPRelativeAccess inst dr hout tr, immOK a) ∧
    (∀ a ∈ genPrologue s ra ++ genEpilogue s ra, immOK a) := by
  refine ⟨?_, ?_, emitsp_immOK _ _ _ _, emitsp_immOK _ _ _ _, ?_⟩
  · unfold EmitSPRelativeAccess
    rw [if_pos ⟨hin1, hin2⟩]
  · unfold EmitSPRelativeAccess
    rw [if_neg (by omega)]
  · intro a ha
    rcases List.mem_append.mp ha with h | h
    · exact prologue_immOK s ra a h
    · exact epilogue_immOK s ra a h

/-- Witness for C9 at concrete offsets 4 (in range) and 4000 (out of
range) and a concrete 32-byte frame with a saved ra. -/
theorem C9_sp_relative_access_witness :
    EmitSPRelativeAccess "sw" "ra" 4 "t0" = [.access "sw" "ra" 4 "sp"] ∧
    EmitSPRelativeAccess "sw" "ra" 4000 "t0" =
      [.li "t0" 4000, .addr "t0" "sp" "t0", .access "sw" "ra" 0 "t0"] ∧
    (∀ a ∈ EmitSPRelativeAccess "sw" "ra" 4 "t0", immOK a) ∧
    (∀ a ∈ EmitSPRelativeAccess "sw" "ra" 4000 "t0", immOK a) ∧
    (∀ a ∈ genPrologue 32 true ++ genEpilogue 32 true, immOK a) :=
  C9_sp_relative_access "sw" "ra" 4 "t0" 32 true (by norm_num) (by norm_num)
    4000 (Or.inr (by norm_num))

theorem foldl_ge_start {α : Type} (f : Int → α → Int) (h : ∀ acc i, acc ≤ f acc i) :
    ∀ (l : List α) (acc : Int), acc ≤ l.foldl f acc := by
  intro l
  induction l with
  | nil => intro acc; simp
  | cons hd tl ih => intro acc; exact le_trans (h acc hd) (ih (f acc hd))

theorem get_array_size_nonneg : ∀ t : KoopaType, 0 ≤ get_array_size t := by
  intro t
  induction t with
  | int32 => norm_num [get_array_size]
  | unit => norm_num [get_array_size]
  | array base len ih =>
    simp only [get_array_size]
    exact mul_nonneg (by positivity) ih
  | pointer base ih => simpa [get_array_size] using ih

theorem reservedScan_nonneg (f : KFunc) : 0 ≤ reservedScan f := by
  unfold reservedScan
  refine foldl_ge_start _ ?_ f 0
  intro acc bb
  refine foldl_ge_start _ ?_ bb acc
  intro acc2 i
  match i with
  | ⟨.allocK, ty⟩ =>
    have := get_array_size_nonneg ty
    simp only []
    omega
  | ⟨.callK n, ty⟩ =>
    cases ty <;> simp
  | ⟨.otherK, ty⟩ =>
    cases ty <;> simp

theorem stackParamNum_nonneg (f : KFunc) : 0 ≤ stackParamNum f := by
  unfold stackParamNum
  refine foldl_ge_start _ ?_ f 0
  intro acc bb
  refine foldl_ge_start _ ?_ bb acc
  intro acc2 i
  match i with
  | ⟨.allocK, _⟩ => simp
  | ⟨.callK n, _⟩ => exact le_max_left _ _
  | ⟨.otherK, _⟩ => simp

theorem foldl_spStep_emitsp (op : String) (d t0 o : Int) :
    (List.foldl spStep (d, t0) (EmitSPRelativeAccess op "ra" o "t0")).1 = d := by
  unfold EmitSPRelativeAccess
  split
  · rfl
  · rfl

theorem spDelta_prologue (s : Int) (ra : Bool) (hs : 0 ≤ s) :
    spDelta (genPrologue s ra) = -s := by
  unfold genPrologue spDelta
  by_cases h0 : 0 < s
  · by_cases h1 : s ≤ 2047
    · rw [if_pos h0, if_pos h1]
      by_cases hra : ra
      · rw [if_pos hra]
        show (List.foldl spStep (List.foldl spStep (0, 0) [AsmInst.addi "sp" "sp" (-s)])
          (EmitSPRelativeAccess "sw" "ra" (s - 4) "t0")).1 = -s
        have hstep : List.foldl spStep ((0, 0) : Int × Int) [AsmInst.addi "sp" "sp" (-s)] =
            (0 + -s, 0) := rfl
        rw [hstep, foldl_spStep_emitsp]
        omega
      · rw [if_neg hra]
        show ((0 + -s, (0 : Int)) : Int × Int).1 = -s
        omega
    · rw [if_pos h0, if_neg h1]
      by_cases hra : ra
      · rw [if_pos hra]
        show (List.foldl spStep
          (List.foldl spStep (0, 0) [AsmInst.li "t0" (-s), AsmInst.addr "sp" "sp" "t0"])
          (EmitSPRelativeAccess "sw" "ra" (s - 4) "t0")).1 = -s
        have hstep : List.foldl spStep ((0, 0) : Int × Int)
            [AsmInst.li "t0" (-s), AsmInst.addr "sp" "sp" "t0"] = (0 + -s, -s) := rfl
        rw [hstep, foldl_spStep_emitsp]
        omega
      · rw [if_neg hra]
        show ((0 + -s, -s) : Int × Int).1 = -s
        omega
  · have hs0 : s = 0 := by omega
    subst hs0
    rw [if_neg h0]
    by_cases hra : ra
    · rw [if_pos hra]
      simp only [List.nil_append]
      rw [show ((0 : Int), (0 : Int)) = ((0 : Int × Int).1, (0 : Int × Int).2) from rfl]
      exact foldl_spStep_emitsp "sw" 0 0 (0 - 4)
    · rw [if_neg hra]
      rfl

theorem spDelta_epilogue (s : Int) (ra : Bool) (hs : 0 ≤ s) :
    spDelta (genEpilogue s ra) = s := by
  unfold genEpilogue spDelta
  have hra_part : ∀ (b : Bool),
      List.foldl spStep ((0, 0) : Int × Int)
        (if b then EmitSPRelativeAccess "lw" "ra" (s - 4) "t0" else []) =
      (0, (List.foldl spStep ((0, 0) : Int × Int)
        (if b then EmitSPRelativeAccess "lw" "ra" (s - 4) "t0" else [])).2) := by
    intro b
    cases b
    · rfl
    · simp only [if_pos]
      have h1 := foldl_spStep_emitsp "lw" 0 0 (s - 4)
      exact Prod.ext h1 rfl
  by_cases hra : ra
  · rw [List.foldl_append, if_pos hra]
    have h1 := foldl_spStep_emitsp "lw" (0 : Int) 0 (s - 4)
    rcases hfold : List.foldl spStep ((0, 0) : Int × Int)
        (EmitSPRelativeAccess "lw" "ra" (s - 4) "t0") with ⟨d, t0v⟩
    have hd : d = 0 := by rw [hfold] at h1; exact h1
    subst hd
    by_cases h0 : 0 < s
    · by_cases h1s : s ≤ 2047
      · rw [if_pos h0, if_pos h1s]
        show ((0 + s, t0v) : Int × Int).1 = s
        omega
      · rw [if_pos h0, if_neg h1s]
        show ((0 + s, s) : Int × Int).1 = s
        omega
    · have hs0 : s = 0 := by omega
      subst hs0
      rw [if_neg h0]
      rfl
  · rw [List.foldl_append, if_neg hra]
    simp only [List.foldl_nil]
    by_cases h0 : 0 < s
    · by_cases h1s : s ≤ 2047
      · rw [if_pos h0, if_pos h1s]
        show ((0 + s, (0 : Int)) : Int × Int).1 = s
        omega
      · rw [if_pos h0, if_neg h1s]
        show ((0 + s, s) : Int × Int).1 = s
        omega
    · have hs0 : s = 0 := by omega
      subst hs0
      rw [if_neg h0]
      rfl

/-- C2 (amended): the total stack adjustment performed in the prologue and
undone in the epilogue equals the reserved slot bytes plus four bytes when
any call exists plus four bytes per stack-passed outgoing argument, rounded
up to a multiple of 16; the adjustment is a non-negative multiple of 16,
positive whenever that base quantity is positive, but zero - with no
adjustment emitted at all - for a function with no calls, no allocs, and
only unit-typed instructions. -/
theorem C2_frame_size (f : KFunc) :
    CalculateStackSize f =
      Int.tdiv (reservedScan f + (if isRaSaved f then 1 else 0) * 4 +
        stackParamNum f * 4 + 15) 16 * 16 ∧
    16 ∣ CalculateStackSize f ∧
    reservedScan f + (if isRaSaved f then 1 else 0) * 4 + stackParamNum f * 4 ≤
      CalculateStackSize f ∧
    CalculateStackSize f <
      reservedScan f + (if isRaSaved f then 1 else 0) * 4 + stackParamNum f * 4 + 16 ∧
    0 ≤ CalculateStackSize f ∧
    spDelta (genPrologue (CalculateStackSize f) (isRaSaved f)) = -(CalculateStackSize f) ∧
    spDelta (genEpilogue (CalculateStackSize f) (isRaSaved f)) = CalculateStackSize f ∧
    (0 < reservedScan f + (if isRaSaved f then 1 else 0) * 4 + stackParamNum f * 4 →
      0 < CalculateStackSize f) := by
  have hres := reservedScan_nonneg f
  have hspn := stackParamNum_nonneg f
  have hra : (0 : Int) ≤ (if isRaSaved f then 1 else 0) * 4 := by
    split <;> norm_num
  set base := reservedScan f + (if isRaSaved f then 1 else 0) * 4 + stackParamNum f * 4
    with hbase_def
  have hbase : 0 ≤ base := by omega
  have hcalc : CalculateStackSize f = Int.tdiv (base + 15) 16 * 16 := by
    unfold CalculateStackSize
    rw [hbase_def]
  have htdiv : Int.tdiv (base + 15) 16 = (base + 15) / 16 :=
    Int.tdiv_eq_ediv (by omega) (by norm_num)
  have hmod := Int.emod_emod_of_dvd (base + 15) (dvd_refl 16)
  have hdm : 16 * ((base + 15) / 16) + (base + 15) % 16 = base + 15 :=
    Int.ediv_add_emod (base + 15) 16
  have hm1 : 0 ≤ (base + 15) % 16 := Int.emod_nonneg _ (by norm_num)
  have hm2 : (base + 15) % 16 < 16 := Int.emod_lt_of_pos _ (by norm_num)
  have hs_eq : CalculateStackSize f = (base + 15) / 16 * 16 := by
    rw [hcalc, htdiv]
  refine ⟨hcalc, ?_, ?_, ?_, ?_, ?_, ?_, ?_⟩
  · rw [hs_eq]; exact dvd_mul_left 16 _
  · omega
  · omega
  · omega
  · exact spDelta_prologue _ _ (by omega)
  · exact spDelta_epilogue _ _ (by omega)
  · omega

/-- Counterexample for C2 as stated: a function whose only instruction is a
plain return (unit type, no alloc, no call) gets stack size zero, the
prologue performs no adjustment at all, and zero is not a positive multiple
of 16. -/
theorem C2_frame_size_cex :
    CalculateStackSize [[⟨.otherK, .unit⟩]] = 0 ∧
    genPrologue (CalculateStackSize [[⟨.otherK, .unit⟩]]) (isRaSaved [[⟨.otherK, .unit⟩]]) =
      [] ∧
    ¬ (0 : Int) < CalculateStackSize [[⟨.otherK, .unit⟩]] := by
  refine ⟨rfl, rfl, by decide⟩

/-- Witness for C2 on a function with one call of nine arguments and one
four-byte alloc: base is 4 + 4 + 4 = 12, frame rounds to 16. -/
theorem C2_frame_size_witness :
    CalculateStackSize [[⟨.allocK, .pointer .int32⟩, ⟨.callK 9, .unit⟩]] = 16 ∧
    16 ∣ CalculateStackSize [[⟨.allocK, .pointer .int32⟩, ⟨.callK 9, .unit⟩]] ∧
    spDelta (genPrologue 16 true) = -16 := by
  have h := C2_frame_size [[⟨.allocK, .pointer .int32⟩, ⟨.callK 9, .unit⟩]]
  have hval : CalculateStackSize [[⟨.allocK, .pointer .int32⟩, ⟨.callK 9, .unit⟩]] = 16 := rfl
  exact ⟨hval, h.2.1, h.2.2.2.2.2.1⟩

/-- C8: when the lowered body of a function definition is not terminated,
lowering appends exactly one default return before the closing brace (ret 0
for an int-returning function, plain ret for void); when the body is
terminated, no default return is appended. -/
theorem C8_default_return (f : FuncDefData) (g g1 g2 : GenSt) (term : Bool) (m3 : SymMgr)
    (h1 : genFuncDefProlog f g = .ok g1)
    (h2 : genBlock f.block g1 = .ok (term, g2))
    (h3 : exitScope g2.mgr = some m3) :
    (∃ gf, genFuncDef f g = .ok gf ∧
      gf.lines = g2.lines ++ defaultRetLines f.func_type term ++ ["\x7d", ""]) ∧
    (term = false → f.func_type ≠ "void" → defaultRetLines f.func_type term = ["  ret 0"]) ∧
    (term = false → f.func_type = "void" → defaultRetLines f.func_type term = ["  ret"]) ∧
    (term = true → defaultRetLines f.func_type term = []) := by
  refine ⟨?_, ?_, ?_, ?_⟩
  · unfold genFuncDef
    rw [h1]
    dsimp only
    rw [h2]
    dsimp only
    have hx : exitScope (emit ""
        (emit "\x7d" (appendLines (defaultRetLines f.func_type term) g2))).mgr = some m3 := h3
    rw [hx]
    refine ⟨_, rfl, ?_⟩
    simp [emit, appendLines, List.append_assoc]
  · intro ht hv
    subst ht
    simp [defaultRetLines, hv]
  · intro ht hv
    subst ht
    simp [defaultRetLines, hv]
  · intro ht
    subst ht
    simp [defaultRetLines]

/-- Witness for C8: lowering int main with an empty body appends ret 0
before the closing brace. -/
theorem C8_default_return_witness :
    ∃ gf, genFuncDef ⟨"int", "main", [], []⟩ ⟨[], 0, 0, 0, 0, 0, SymMgr.init⟩ = .ok gf ∧
      gf.lines = ["fun @main(): i32 \x7b", "%entry:", "  ret 0", "\x7d", ""] := by
  obtain ⟨⟨gf, hgf, hlines⟩, hint, hvoid, hterm⟩ :=
    C8_default_return ⟨"int", "main", [], []⟩ ⟨[], 0, 0, 0, 0, 0, SymMgr.init⟩
      ⟨["fun @main(): i32 \x7b", "%entry:"], 0, 0, 0, 0, 0,
        ⟨[[], [("main", ⟨"main", "main", 0, false, .FUNC_SYMBOL, "int", []⟩)]], [], []⟩⟩
      ⟨["fun @main(): i32 \x7b", "%entry:"], 0, 0, 0, 0, 0,
        ⟨[[], [("main", ⟨"main", "main", 0, false, .FUNC_SYMBOL, "int", []⟩)]], [], []⟩⟩
      false
      ⟨[[("main", ⟨"main", "main", 0, false, .FUNC_SYMBOL, "int", []⟩)]], [], []⟩
      rfl rfl rfl
  refine ⟨gf, hgf, ?_⟩
  rw [hlines]
  rfl

theorem evalConst_total (e : Expr) (m : SymMgr) (h : constSafe e m = true) :
    ∃ n, evaluateConst e m = .ok n := by
  match e with
  | .number n => exact ⟨n, rfl⟩
  | .paren e => exact evalConst_total e m h
  | .constExp e => exact evalConst_total e m h
  | .lvalE id idxs =>
    simp only [constSafe, Bool.and_eq_true, List.isEmpty_iff, Option.isSome_iff_exists] at h
    obtain ⟨hnil, sym, hsym⟩ := h
    subst hnil
    exact ⟨sym.value, by simp only [evaluateConst, hsym]⟩
  | .unaryOp op e =>
    obtain ⟨n, hn⟩ := evalConst_total e m h
    simp only [evaluateConst, hn]
    split_ifs <;> exact ⟨_, rfl⟩
  | .call id args => simp [constSafe] at h
  | .mulOp op a b =>
    simp only [constSafe, Bool.and_eq_true] at h
    obtain ⟨na, hna⟩ := evalConst_total a m h.1
    obtain ⟨nb, hnb⟩ := evalConst_total b m h.2
    simp only [evaluateConst, hna, hnb]
    split_ifs <;> exact ⟨_, rfl⟩
  | .addOp op a b =>
    simp only [constSafe, Bool.and_eq_true] at h
    obtain ⟨na, hna⟩ := evalConst_total a m h.1
    obtain ⟨nb, hnb⟩ := evalConst_total b m h.2
    simp only [evaluateConst, hna, hnb]
    split_ifs <;> exact ⟨_, rfl⟩
  | .relOp op a b =>
    simp only [constSafe, Bool.and_eq_true] at h
    obtain ⟨na, hna⟩ := evalConst_total a m h.1
    obtain ⟨nb, hnb⟩ := evalConst_total b m h.2
    simp only [evaluateConst, hna, hnb]
    split_ifs <;> exact ⟨_, rfl⟩
  | .eqOp op a b =>
    simp only [constSafe, Bool.and_eq_true] at h
    obtain ⟨na, hna⟩ := evalConst_total a m h.1
    obtain ⟨nb, hnb⟩ := evalConst_total b m h.2
    simp only [evaluateConst, hna, hnb]
    split_ifs <;> exact ⟨_, rfl⟩
  | .landOp a b =>
    simp only [constSafe, Bool.and_eq_true] at h
    obtain ⟨na, hna⟩ := evalConst_total a m h.1
    obtain ⟨nb, hnb⟩ := evalConst_total b m h.2
    simp only [evaluateConst, hna, hnb]
    exact ⟨_, rfl⟩
  | .lorOp a b =>
    simp only [constSafe, Bool.and_eq_true] at h
    obtain ⟨na, hna⟩ := evalConst_total a m h.1
    obtain ⟨nb, hnb⟩ := evalConst_total b m h.2
    simp only [evaluateConst, hna, hnb]
    exact ⟨_, rfl⟩

/-- C1 (amended): the constant evaluator fails with a not-a-constant error
for array-element references and for function calls, and with an
undefined-variable error for unresolved identifiers; but a scalar
identifier reference returns the stored value field of its symbol whether
or not the symbol is a constant (a runtime variable folds silently to its
stored value instead of failing); every call-free expression whose
identifier references are index-free and resolved folds to an integer. -/
theorem C1_const_evaluator :
    (∀ (id : String) (i0 : Expr) (irest : List Expr) (m : SymMgr) (sym : SymbolInfo),
        lookupSymbol m id = some sym →
        evaluateConst (.lvalE id (i0 :: irest)) m =
          .error "Cannot evaluate array element in constant expression") ∧
    (∀ (id : String) (idxs : List Expr) (m : SymMgr), lookupSymbol m id = none →
        evaluateConst (.lvalE id idxs) m = .error ("Undefined variable: " ++ id)) ∧
    (∀ (id : String) (args : List Expr) (m : SymMgr),
        evaluateConst (.call id args) m =
          .error "Cannot evaluate function call in constant expression") ∧
    (∀ (id : String) (m : SymMgr) (sym : SymbolInfo), lookupSymbol m id = some sym →
        evaluateConst (.lvalE id []) m = .ok sym.value) ∧
    (∀ (e : Expr) (m : SymMgr), constSafe e m = true → ∃ n, evaluateConst e m = .ok n) := by
  refine ⟨?_, ?_, ?_, ?_, evalConst_total⟩
  · intro id i0 irest m sym hsym
    simp only [evaluateConst, hsym]
  · intro id idxs m hnone
    cases idxs <;> simp only [evaluateConst, hnone]
  · intro id args m
    rfl
  · intro id m sym hsym
    simp only [evaluateConst, hsym]

/-- Counterexample for C1 as stated: an lvalue naming a runtime (non-const)
variable does not fail with a not-a-constant error; the evaluator returns
the stored value field (zero) as a folded integer. -/
theorem C1_const_evaluator_cex :
    evaluateConst (.lvalE "x" [])
      ⟨[[("x", ⟨"x", "x", 0, false, .VAR_SYMBOL, "i32", []⟩)]], [], []⟩ = .ok 0 ∧
    (lookupSymbol ⟨[[("x", ⟨"x", "x", 0, false, .VAR_SYMBOL, "i32", []⟩)]], [], []⟩ "x").map
      (fun s => s.is_const) = some false :=
  ⟨rfl, rfl⟩

/-- Witness for C1 at concrete inputs: an indexed array lvalue and a call
fail, an unresolved name fails, a bound constant folds to its value, and a
literal sum folds. -/
theorem C1_const_evaluator_witness :
    evaluateConst (.lvalE "a" [.number 0])
      ⟨[[("a", ⟨"a", "a", 0, true, .VAR_SYMBOL, "*i32", [2]⟩)]], [], []⟩ =
      .error "Cannot evaluate array element in constant expression" ∧
    evaluateConst (.lvalE "nope" []) SymMgr.init = .error ("Undefined variable: " ++ "nope") ∧
    evaluateConst (.call "f" []) SymMgr.init =
      .error "Cannot evaluate function call in constant expression" ∧
    evaluateConst (.lvalE "c" [])
      ⟨[[("c", ⟨"c", "c", 7, true, .VAR_SYMBOL, "i32", []⟩)]], [], []⟩ = .ok 7 ∧
    (∃ n, evaluateConst (.addOp "+" (.number 2) (.number 3)) SymMgr.init = .ok n) :=
  ⟨C1_const_evaluator.1 "a" (.number 0) []
      ⟨[[("a", ⟨"a", "a", 0, true, .VAR_SYMBOL, "*i32", [2]⟩)]], [], []⟩
      ⟨"a", "a", 0, true, .VAR_SYMBOL, "*i32", [2]⟩ rfl,
   C1_const_evaluator.2.1 "nope" [] SymMgr.init rfl,
   C1_const_evaluator.2.2.1 "f" [] SymMgr.init,
   C1_const_evaluator.2.2.2.1 "c"
      ⟨[[("c", ⟨"c", "c", 7, true, .VAR_SYMBOL, "i32", []⟩)]], [], []⟩
      ⟨"c", "c", 7, true, .VAR_SYMBOL, "i32", []⟩ rfl,
   C1_const_evaluator.2.2.2.2 (.addOp "+" (.number 2) (.number 3)) SymMgr.init rfl⟩

/-- C5 (amended): an identifier used in rvalue position that resolves to no
symbol raises an undefined-variable error that propagates, but the
destination of an assignment statement is not checked: when the assigned
identifier resolves to no symbol, the statement lowers to exactly the IR of
its right-hand side, the store is silently dropped, and no error is
raised. -/
theorem C5_undefined_identifier :
    (∀ (id : String) (idxs : List Expr) (g : GenSt), lookupSymbol g.mgr id = none →
        genExpr (.lvalE id idxs) g = .error ("Undefined variable: " ++ id)) ∧
    (∀ (id : String) (idxs : List Expr) (rhs : Expr) (g g1 : GenSt) (v : String),
        genExpr rhs g = .ok (v, g1) → lookupSymbol g1.mgr id = none →
        genStmt (.assign id idxs rhs) g = .ok (false, g1)) := by
  constructor
  · intro id idxs g hnone
    cases idxs <;> simp only [genExpr, hnone]
  · intro id idxs rhs g g1 v hrhs hnone
    simp only [genStmt, hrhs, hnone]

/-- Counterexample for C5 as stated: assigning to the undefined identifier
y raises no error; lowering succeeds, emits the IR of the right-hand side
only, and drops the store. -/
theorem C5_undefined_identifier_cex :
    genStmt (.assign "y" [] (.unaryOp "-" (.number 1))) ⟨[], 0, 0, 0, 0, 0, SymMgr.init⟩ =
      .ok (false, ⟨["  %0 = sub 0, 1"], 1, 0, 0, 0, 0, SymMgr.init⟩) := rfl

/-- Witness for C5 at concrete inputs. -/
theorem C5_undefined_identifier_witness :
    genExpr (.lvalE "y" []) ⟨[], 0, 0, 0, 0, 0, SymMgr.init⟩ =
      .error ("Undefined variable: " ++ "y") ∧
    genStmt (.assign "y" [] (.number 1)) ⟨[], 0, 0, 0, 0, 0, SymMgr.init⟩ =
      .ok (false, ⟨[], 0, 0, 0, 0, 0, SymMgr.init⟩) :=
  ⟨C5_undefined_identifier.1 "y" [] ⟨[], 0, 0, 0, 0, 0, SymMgr.init⟩ rfl,
   C5_undefined_identifier.2 "y" [] (.number 1) ⟨[], 0, 0, 0, 0, 0, SymMgr.init⟩
     ⟨[], 0, 0, 0, 0, 0, SymMgr.init⟩ "1" rfl rfl⟩

/-- Program with two function definitions both named main, used to observe
what lowering does on a duplicated global symbol. -/
def dupMainProg : List TopItem :=
  [.funcItem ⟨"int", "main", [], [.stmtItem (.returnStmt (some (.number 0)))]⟩,
   .funcItem ⟨"int", "main", [], [.stmtItem (.returnStmt (some (.number 0)))]⟩]

/-- C3 (amended): add_symbol answers false on a duplicate and leaves the
symbol unnamed, but every lowering site ignores that answer: declaring a
function whose name is already bound emits a header with an empty function
name and lowering continues without error, and a duplicated local variable
declaration likewise emits an alloc with an empty name. -/
theorem C3_redeclaration :
    (∀ (sym : SymbolInfo) (m : SymMgr) (cur : Scope) (rest : List Scope),
        m.table_stack = cur :: rest → scopeHas cur sym.name = true →
        addSymbol sym m = some (false, sym, m)) ∧
    (∀ (f : FuncDefData) (g : GenSt) (cur : Scope) (rest : List Scope),
        f.params = [] → g.mgr.table_stack = cur :: rest → scopeHas cur f.ident = true →
        ∃ g2, genFuncDefProlog f g = .ok g2 ∧
          g2.lines = g.lines ++
            ["fun @()" ++ (if f.func_type ≠ "void" then ": " ++ btypeIRString f.func_type
              else "") ++ " \x7b", "%entry:"]) ∧
    (∀ (d : VarDefData) (g : GenSt) (cur : Scope) (r0 : Scope) (rest : List Scope),
        d.array_size_exps = [] → d.init_val = none →
        g.mgr.table_stack = cur :: r0 :: rest → scopeHas cur d.ident = true →
        genVarDef d g = .ok (emit "  @ = alloc i32" g)) := by
  have haddDup : ∀ (sym : SymbolInfo) (m : SymMgr) (cur : Scope) (rest : List Scope),
      m.table_stack = cur :: rest → scopeHas cur sym.name = true →
      addSymbol sym m = some (false, sym, m) := by
    intro sym m cur rest hstack hhas
    unfold addSymbol
    rw [hstack]
    dsimp only
    rw [if_pos hhas]
  refine ⟨haddDup, ?_, ?_⟩
  · intro f g cur rest hp hstack hhas
    unfold genFuncDefProlog
    dsimp only
    rw [haddDup ⟨f.ident, "", 0, false, .FUNC_SYMBOL, f.func_type, []⟩
      (clearSymbolCounter g.mgr) cur rest hstack hhas]
    dsimp only
    rw [hp]
    dsimp only [processParams]
    refine ⟨_, rfl, ?_⟩
    simp only [paramAllocLines, emit, List.append_assoc]
    rfl
  · intro d g cur r0 rest harr hinit hstack hhas
    unfold genVarDef
    rw [harr]
    dsimp only
    rw [haddDup ⟨d.ident, "", 0, false, .VAR_SYMBOL, "i32", []⟩ g.mgr cur (r0 :: rest)
      hstack hhas]
    dsimp only
    have hcond : ¬ (isGlobalScope g.mgr = true) := by
      simp [isGlobalScope, hstack]
    rw [if_neg hcond, hinit]
    rfl

/-- Counterexample for C3 as stated: lowering a program whose second
function duplicates the name main does not fail; it emits the duplicate
with an empty symbol name (header fun @(): i32) and completes
successfully. -/
theorem C3_redeclaration_cex :
    "fun @main(): i32 \x7b" ∈ linesOf (genCompUnit dupMainProg) ∧
    "fun @(): i32 \x7b" ∈ linesOf (genCompUnit dupMainProg) ∧
    (genCompUnit dupMainProg).isOk = true := by
  refine ⟨?_, ?_, rfl⟩ <;> decide

/-- Witness for C3 at concrete inputs: a duplicate in the current scope is
answered with false and an unchanged symbol, a duplicated function emits an
empty header name, and a duplicated local variable emits an empty alloc
name. -/
theorem C3_redeclaration_witness :
    addSymbol ⟨"f", "", 0, false, .FUNC_SYMBOL, "int", []⟩
      ⟨[[("f", ⟨"f", "f", 0, false, .FUNC_SYMBOL, "int", []⟩)]], [], []⟩ =
      some (false, ⟨"f", "", 0, false, .FUNC_SYMBOL, "int", []⟩,
        ⟨[[("f", ⟨"f", "f", 0, false, .FUNC_SYMBOL, "int", []⟩)]], [], []⟩) ∧
    (∃ g2, genFuncDefProlog ⟨"int", "f", [], []⟩
        ⟨[], 0, 0, 0, 0, 0, ⟨[[("f", ⟨"f", "f", 0, false, .FUNC_SYMBOL, "int", []⟩)]], [], []⟩⟩ =
        .ok g2 ∧
      g2.lines = [] ++
        ["fun @()" ++ (if ("int" : String) ≠ "void" then ": " ++ btypeIRString "int"
          else "") ++ " \x7b", "%entry:"]) ∧
    genVarDef ⟨"x", [], none⟩
      ⟨[], 0, 0, 0, 0, 0,
        ⟨[[("x", ⟨"x", "x_0", 0, false, .VAR_SYMBOL, "i32", []⟩)], []], [], []⟩⟩ =
      .ok (emit "  @ = alloc i32"
        ⟨[], 0, 0, 0, 0, 0,
          ⟨[[("x", ⟨"x", "x_0", 0, false, .VAR_SYMBOL, "i32", []⟩)], []], [], []⟩⟩) :=
  ⟨C3_redeclaration.1 ⟨"f", "", 0, false, .FUNC_SYMBOL, "int", []⟩
      ⟨[[("f", ⟨"f", "f", 0, false, .FUNC_SYMBOL, "int", []⟩)]], [], []⟩
      [("f", ⟨"f", "f", 0, false, .FUNC_SYMBOL, "int", []⟩)] [] rfl rfl,
   C3_redeclaration.2.1 ⟨"int", "f", [], []⟩
      ⟨[], 0, 0, 0, 0, 0, ⟨[[("f", ⟨"f", "f", 0, false, .FUNC_SYMBOL, "int", []⟩)]], [], []⟩⟩
      [("f", ⟨"f", "f", 0, false, .FUNC_SYMBOL, "int", []⟩)] [] rfl rfl rfl,
   C3_redeclaration.2.2 ⟨"x", [], none⟩
      ⟨[], 0, 0, 0, 0, 0,
        ⟨[[("x", ⟨"x", "x_0", 0, false, .VAR_SYMBOL, "i32", []⟩)], []], [], []⟩⟩
      [("x", ⟨"x", "x_0", 0, false, .VAR_SYMBOL, "i32", []⟩)] [] [] rfl rfl rfl rfl⟩

theorem candName_inj (name : String) : Function.Injective (candName name) := by
  intro k1 k2 h
  unfold candName at h
  have hd := congrArg String.data h
  simp only [String.data_append] at hd
  have h3 : (decimalString k1).data = (decimalString k2).data := List.append_cancel_left hd
  exact decimalString_injective (String.ext h3)

theorem rerollAux_shape (name : String) (g : Scope) :
    ∀ (fuel c : Nat), ∃ k, (rerollAux name g c fuel).1 = candName name k := by
  intro fuel
  induction fuel with
  | zero => intro c; exact ⟨c, rfl⟩
  | succ f ih =>
    intro c
    unfold rerollAux
    split
    · exact ih (c + 1)
    · exact ⟨c, rfl⟩

theorem rerollAux_all_or_free (name : String) (g : Scope) :
    ∀ (fuel c : Nat),
      (∀ j < fuel, scopeHas g (candName name (c + j)) = true) ∨
      scopeHas g ((rerollAux name g c fuel).1) = false := by
  intro fuel
  induction fuel with
  | zero =>
    intro c
    left
    intro j hj
    omega
  | succ f ih =>
    intro c
    by_cases hc : scopeHas g (candName name c) = true
    · have heq : rerollAux name g c (f + 1) = rerollAux name g (c + 1) f := by
        show (if scopeHas g (candName name c) = true then rerollAux name g (c + 1) f
          else (candName name c, c + 1)) = rerollAux name g (c + 1) f
        rw [if_pos hc]
      rcases ih (c + 1) with hall | hfree
      · left
        intro j hj
        match j with
        | 0 => simpa using hc
        | j' + 1 =>
          have := hall j' (by omega)
          have harith : c + 1 + j' = c + (j' + 1) := by omega
          rwa [harith] at this
      · right
        rw [heq]
        exact hfree
    · right
      have heq : rerollAux name g c (f + 1) = (candName name c, c + 1) := by
        show (if scopeHas g (candName name c) = true then rerollAux name g (c + 1) f
          else (candName name c, c + 1)) = (candName name c, c + 1)
        rw [if_neg hc]
      rw [heq]
      simpa using hc

theorem scopeHas_mem (g : Scope) (n : String) (h : scopeHas g n = true) :
    n ∈ g.map Prod.fst := by
  unfold scopeHas at h
  simp only [List.any_eq_true, beq_iff_eq] at h
  obtain ⟨p, hp, he⟩ := h
  exact List.mem_map.mpr ⟨p, hp, he⟩

theorem reroll_avoids_globals (name : String) (g : Scope) (c : Nat) :
    scopeHas g ((rerollAux name g c (g.length + 1)).1) = false := by
  rcases rerollAux_all_or_free name g (g.length + 1) c with hall | hfree
  · exfalso
    have hinj : Function.Injective (fun j : Nat => candName name (c + j)) := by
      intro a b hab
      have := candName_inj name hab
      omega
    have hsub : Finset.image (fun j => candName name (c + j))
        (Finset.range (g.length + 1)) ⊆ (g.map Prod.fst).toFinset := by
      intro x hx
      simp only [Finset.mem_image, Finset.mem_range] at hx
      obtain ⟨j, hj, rfl⟩ := hx
      exact List.mem_toFinset.mpr (scopeHas_mem g _ (hall j hj))
    have h1 : (Finset.image (fun j => candName name (c + j))
        (Finset.range (g.length + 1))).card = g.length + 1 := by
      rw [Finset.card_image_of_injective _ hinj, Finset.card_range]
    have h2 := Finset.card_le_card hsub
    have h3 := List.toFinset_card_le (g.map Prod.fst)
    rw [h1] at h2
    simp only [List.length_map] at h3
    omega
  · exact hfree

/-- C4 (amended): a symbol inserted at global scope keeps the identifier
itself as its unique name; a symbol inserted at nested scope gets the
identifier suffixed with a counter value, rerolled until it collides with
no name bound in the global scope at insertion time.  The whole-program
consequence claimed in the specification fails: a global declared later may
reuse the emitted name of an earlier local allocation (see the
counterexample). -/
theorem C4_uniquification :
    (∀ (sym : SymbolInfo) (m : SymMgr) (cur : Scope),
        m.table_stack = [cur] → scopeHas cur sym.name = false →
        ∃ m2, addSymbol sym m = some (true, { sym with unique_name := sym.name }, m2)) ∧
    (∀ (sym : SymbolInfo) (m : SymMgr) (cur r0 : Scope) (rest : List Scope),
        m.table_stack = cur :: r0 :: rest → scopeHas cur sym.name = false →
        ∃ k m2, addSymbol sym m =
          some (true, { sym with unique_name := candName sym.name k }, m2) ∧
          scopeHas (globalScope m) (candName sym.name k) = false) := by
  constructor
  · intro sym m cur hstack hfree
    unfold addSymbol
    rw [hstack]
    dsimp only
    rw [if_neg (by simp [hfree])]
    exact ⟨_, rfl⟩
  · intro sym m cur r0 rest hstack hfree
    unfold addSymbol
    rw [hstack]
    dsimp only
    rw [if_neg (by simp [hfree])]
    rw [if_neg (by simp)]
    obtain ⟨k, hk⟩ := rerollAux_shape sym.name ((cur :: r0 :: rest).getLastD [])
      (((cur :: r0 :: rest).getLastD []).length + 1) (counterGet m.symbol_counter sym.name)
    have havoid := reroll_avoids_globals sym.name ((cur :: r0 :: rest).getLastD [])
      (counterGet m.symbol_counter sym.name)
    rw [hk] at havoid
    rw [hk]
    refine ⟨k, _, rfl, ?_⟩
    unfold globalScope
    rw [hstack]
    exact havoid

/-- Program with a local x inside a function followed by a later global
named x_0: the local allocation is uniquified to x_0 before the global of
that very name is declared. -/
def localGlobalProg : List TopItem :=
  [.funcItem ⟨"void", "f", [], [.varDeclItem [⟨"x", [], none⟩]]⟩,
   .varDeclItem [⟨"x_0", [], none⟩]]

/-- Counterexample for C4 as stated: in the emitted IR of localGlobalProg a
local allocation and a global allocation carry the same name x_0, because
uniquification only checks the globals present at insertion time. -/
theorem C4_uniquification_cex :
    "  @x_0 = alloc i32" ∈ linesOf (genCompUnit localGlobalProg) ∧
    "global @x_0 = alloc i32, zeroinit" ∈ linesOf (genCompUnit localGlobalProg) ∧
    (genCompUnit localGlobalProg).isOk = true := by
  refine ⟨?_, ?_, rfl⟩ <;> decide

/-- Witness for C4 at concrete inputs: a global insert keeps the
identifier, and a nested insert built over the scope stack with global
scope binding y gets a counter-suffixed name free of global collisions. -/
theorem C4_uniquification_witness :
    (∃ m2, addSymbol ⟨"gv", "", 5, true, .VAR_SYMBOL, "i32", []⟩ SymMgr.init =
      some (true, ⟨"gv", "gv", 5, true, .VAR_SYMBOL, "i32", []⟩, m2)) ∧
    (∃ k m2, addSymbol ⟨"x", "", 0, false, .VAR_SYMBOL, "i32", []⟩
        ⟨[[], [("y", ⟨"y", "y", 0, false, .VAR_SYMBOL, "i32", []⟩)]], [], []⟩ =
      some (true, ⟨"x", candName "x" k, 0, false, .VAR_SYMBOL, "i32", []⟩, m2) ∧
      scopeHas (globalScope ⟨[[], [("y", ⟨"y", "y", 0, false, .VAR_SYMBOL, "i32", []⟩)]], [], []⟩)
        (candName "x" k) = false) :=
  ⟨C4_uniquification.1 ⟨"gv", "", 5, true, .VAR_SYMBOL, "i32", []⟩ SymMgr.init [] rfl rfl,
   C4_uniquification.2 ⟨"x", "", 0, false, .VAR_SYMBOL, "i32", []⟩
     ⟨[[], [("y", ⟨"y", "y", 0, false, .VAR_SYMBOL, "i32", []⟩)]], [], []⟩
     [] [("y", ⟨"y", "y", 0, false, .VAR_SYMBOL, "i32", []⟩)] [] rfl rfl⟩

theorem foldl_mul_acc (l : List Int) :
    ∀ a : Int, l.foldl (fun x y => x * y) a = a * l.foldl (fun x y => x * y) 1 := by
  induction l with
  | nil => intro a; simp
  | cons hd tl ih =>
    intro a
    rw [List.foldl_cons, List.foldl_cons, ih (a * hd), ih (1 * hd)]
    ring

theorem listProdFrom_pos (dims : List Int) (hpos : ∀ d ∈ dims, 0 < d) (j : Nat) :
    0 < listProdFrom dims j := by
  unfold listProdFrom
  have hall : ∀ d ∈ dims.drop j, 0 < d := fun d hd => hpos d (List.mem_of_mem_drop hd)
  generalize dims.drop j = l at hall ⊢
  induction l with
  | nil => simp
  | cons hd tl ih =>
    rw [List.foldl_cons, foldl_mul_acc]
    have h1 : 0 < hd := hall hd (by simp)
    have h2 : 0 < tl.foldl (fun x y => x * y) 1 :=
      ih (fun d hd2 => hall d (List.mem_cons_of_mem _ hd2))
    positivity

theorem listProdFrom_factor (dims : List Int) (level : Nat) (h : level < dims.length) :
    listProdFrom dims level = dims.get ⟨level, h⟩ * listProdFrom dims (level + 1) := by
  unfold listProdFrom
  rw [List.drop_eq_getElem_cons h, List.foldl_cons, foldl_mul_acc]
  simp [List.get_eq_getElem]

theorem aggElems_length (flat : List (Option Expr)) (m : SymMgr) :
    ∀ (total i : Nat) (res : List String),
      aggElems flat m i total = .ok res → res.length = total := by
  intro total
  induction total with
  | zero =>
    intro i res h
    unfold aggElems at h
    cases h
    rfl
  | succ t ih =>
    intro i res h
    unfold aggElems at h
    cases hget : flat.getD i none with
    | some e =>
      rw [hget] at h
      dsimp only at h
      cases hev : evaluateConst e m with
      | error msg => rw [hev] at h; cases h
      | ok v =>
        rw [hev] at h
        cases hrec : aggElems flat m (i + 1) t with
        | error msg => rw [hrec] at h; cases h
        | ok rest =>
          rw [hrec] at h
          cases h
          simp [ih (i + 1) rest hrec]
    | none =>
      rw [hget] at h
      dsimp only at h
      cases hrec : aggElems flat m (i + 1) t with
      | error msg => rw [hrec] at h; cases h
      | ok rest =>
        rw [hrec] at h
        cases h
        simp [ih (i + 1) rest hrec]

mutual

theorem flatten_len {α : Type} (t : InitTree α) (dims : List Int) (level : Nat)
    (flat : List (Option α)) (written : Int) (flat2 : List (Option α)) (written2 : Int)
    (hpos : ∀ d ∈ dims, 0 < d) (hw : 0 ≤ written)
    (h : flattenInitializer t dims level flat written = .ok (flat2, written2)) :
    written ≤ written2 ∧ (flat2.length : Int) = flat.length + (written2 - written) := by
  match t with
  | .single e =>
    unfold flattenInitializer at h
    cases h
    constructor
    · omega
    · simp only [List.length_append, List.length_singleton]
      omega
  | .list [] =>
    unfold flattenInitializer at h
    cases h
    simp
  | .list (i0 :: irest) =>
    unfold flattenInitializer at h
    dsimp only at h
    by_cases hlt : level < dims.length
    · rw [dif_pos hlt] at h
      have hdpos : 0 < dims.get ⟨level, hlt⟩ := hpos _ (dims.get_mem level hlt)
      have hstride : Int.tdiv (listProdFrom dims level) (dims.get ⟨level, hlt⟩) =
          listProdFrom dims (level + 1) := by
        rw [listProdFrom_factor dims level hlt]
        exact Int.mul_tdiv_cancel_left _ (by omega)
      rw [hstride] at h
      have hP : 0 < listProdFrom dims (level + 1) := listProdFrom_pos dims hpos (level + 1)
      by_cases hmod : Int.tmod written (listProdFrom dims (level + 1)) ≠ 0
      · rw [if_pos hmod] at h
        cases h
      · rw [if_neg hmod] at h
        cases hfl : flattenList (i0 :: irest) dims level flat written with
        | error msg => rw [hfl] at h; cases h
        | ok pr =>
          rw [hfl] at h
          obtain ⟨flatm, writtenm⟩ := pr
          dsimp only at h
          have ih := flattenList_len (i0 :: irest) dims level flat written flatm writtenm
            hpos hw hfl
          have hwm : 0 ≤ writtenm := by omega
          have hr0 : 0 ≤ Int.tmod writtenm (listProdFrom dims (level + 1)) :=
            Int.tmod_nonneg _ hwm
          have hr1 : Int.tmod writtenm (listProdFrom dims (level + 1)) <
              listProdFrom dims (level + 1) := Int.tmod_lt_of_pos writtenm hP
          by_cases hrem : Int.tmod writtenm (listProdFrom dims (level + 1)) ≠ 0
          · rw [if_pos hrem] at h
            cases h
            have hpadpos : 0 < listProdFrom dims (level + 1) -
                Int.tmod writtenm (listProdFrom dims (level + 1)) := by omega
            constructor
            · omega
            · rw [List.length_append, List.length_replicate]
              push_cast [Int.toNat_of_nonneg (le_of_lt hpadpos)]
              omega
          · rw [if_neg hrem] at h
            cases h
            constructor
            · omega
            · omega
    · rw [dif_neg hlt] at h
      cases h

theorem flattenList_len {α : Type} (ts : List (InitTree α)) (dims : List Int) (level : Nat)
    (flat : List (Option α)) (written : Int) (flat2 : List (Option α)) (written2 : Int)
    (hpos : ∀ d ∈ dims, 0 < d) (hw : 0 ≤ written)
    (h : flattenList ts dims level flat written = .ok (flat2, written2)) :
    written ≤ written2 ∧ (flat2.length : Int) = flat.length + (written2 - written) := by
  match ts with
  | [] =>
    unfold flattenList at h
    cases h
    simp
  | t :: rest =>
    unfold flattenList at h
    cases hfl : flattenInitializer t dims (level + 1) flat written with
    | error msg => rw [hfl] at h; cases h
    | ok pr =>
      rw [hfl] at h
      obtain ⟨flatm, writtenm⟩ := pr
      have ih1 := flatten_len t dims (level + 1) flat written flatm writtenm hpos hw hfl
      have ih2 := flattenList_len rest dims level flatm writtenm flat2 written2 hpos
        (by omega) h
      constructor
      · omega
      · omega

end

/-- C6 (amended): entering a nonempty nested initializer list at level L
raises the misalignment error exactly when the write cursor is not a
multiple of the stride of the next level, the product of the dimensions
after position L (not the product from L on, as the specification words
it); on success the flat sequence grows by exactly the cursor advance, so
its length equals the final cursor rather than always the full element
count; it is the enclosing declaration that materialises exactly the
product of the dimensions many values, reading the flat sequence and
substituting zero for missing or absent positions. -/
theorem C6_initializer_flattening :
    (∀ (α : Type) (t0 : InitTree α) (ts : List (InitTree α)) (dims : List Int) (level : Nat)
        (flat : List (Option α)) (written : Int) (h : level < dims.length),
        Int.tmod written (Int.tdiv (listProdFrom dims level) (dims.get ⟨level, h⟩)) ≠ 0 →
        flattenInitializer (.list (t0 :: ts)) dims level flat written =
          .error "Initializer list not aligned with array dimension boundaries.") ∧
    (∀ (flat : List (Option Expr)) (m : SymMgr) (total i : Nat) (res : List String),
        aggElems flat m i total = .ok res → res.length = total) ∧
    (∀ (α : Type) (t : InitTree α) (dims : List Int) (level : Nat) (flat : List (Option α))
        (written : Int) (flat2 : List (Option α)) (written2 : Int),
        (∀ d ∈ dims, 0 < d) → 0 ≤ written →
        flattenInitializer t dims level flat written = .ok (flat2, written2) →
        written ≤ written2 ∧ (flat2.length : Int) = flat.length + (written2 - written)) := by
  refine ⟨?_, fun flat m total i => aggElems_length flat m total i, ?_⟩
  · intro α t0 ts dims level flat written h hmod
    unfold flattenInitializer
    dsimp only
    rw [dif_pos h, if_pos hmod]
  · intro α t dims level flat written flat2 written2 hpos hw h
    exact flatten_len t dims level flat written flat2 written2 hpos hw h

/-- Counterexample for C6 as stated: over dimensions [2, 2] (product 4) the
initializer tree of two braces around 42 flattens to a sequence of length
2, not 4; and the tree holding 1 followed by a brace around 2 enters its
nested list at cursor 1, which is not a multiple of the product of the
dimensions from level 1 on (2), yet no error is raised. -/
theorem C6_initializer_flattening_cex :
    flattenInitializer (α := Int) (.list [.list [.single 42]]) [2, 2] 0 [] 0 =
      .ok ([some 42, none], 2) ∧
    [some (42 : Int), none].length ≠ 4 ∧
    flattenInitializer (α := Int) (.list [.single 1, .list [.single 2]]) [2, 2] 0 [] 0 =
      .ok ([some 1, some 2], 2) ∧
    Int.tmod 1 (listProdFrom [2, 2] 1) ≠ 0 :=
  ⟨rfl, by decide, rfl, by decide⟩

/-- Witness for C6 at concrete inputs: a misaligned nested list raises the
error, a three-element materialisation has length three, and flattening a
bare expression advances the cursor by one while growing the output by
one. -/
theorem C6_initializer_flattening_witness :
    flattenInitializer (α := Int) (.list [.single 5]) [2, 2, 2] 1 [] 1 =
      .error "Initializer list not aligned with array dimension boundaries." ∧
    (["0", "0", "0"] : List String).length = 3 ∧
    ((0 : Int) ≤ 1 ∧ (([some (7 : Int)] : List (Option Int)).length : Int) =
      (([] : List (Option Int)).length : Int) + (1 - 0)) :=
  ⟨C6_initializer_flattening.1 Int (.single 5) [] [2, 2, 2] 1 [] 1 (by norm_num) (by decide),
   C6_initializer_flattening.2.1 [] SysY.SymMgr.init 3 0 ["0", "0", "0"] rfl,
   C6_initializer_flattening.2.2 Int (.single 7) [2] 0 [] 0 [some 7] 1 (by decide)
     (by decide) rfl⟩

theorem upd_same (f : String → Int) (k : String) (v : Int) : upd f k v k = v := by
  simp [upd]

theorem getElem?_append_offset2 {γ : Type} (xs ys : List γ) (n k : Nat)
    (h : n = xs.length + k) : (xs ++ ys)[n]? = ys[k]? := by
  subst h
  rw [List.getElem?_append_right (by omega)]
  congr 1
  omega

theorem findIdx_append_of_all_false {γ : Type} (p : γ → Bool) (xs ys : List γ)
    (h : ∀ x ∈ xs, p x = false) :
    (xs ++ ys).findIdx p = xs.length + ys.findIdx p := by
  induction xs with
  | nil => simp
  | cons hd tl ih =>
    rw [List.cons_append, List.findIdx_cons, h hd (by simp)]
    simp only [cond_false]
    rw [ih (fun x hx => h x (List.mem_cons_of_mem _ hx))]
    simp only [List.length_cons]
    omega

theorem not_mem_label_all_false (l : String) (xs : List IRInst)
    (h : IRInst.labelI l ∉ xs) :
    ∀ x ∈ xs, (x == IRInst.labelI l) = false := by
  intro x hx
  rw [beq_eq_false_iff_ne]
  rintro rfl
  exact h hx

theorem irRun_succ (prog : List IRInst) (s s2 : IRState) (fuel : Nat)
    (h : irStep prog s = some s2) :
    irRun prog s (fuel + 1) =
      (s.pc :: (irRun prog s2 fuel).1, (irRun prog s2 fuel).2) := by
  show (match irStep prog s with
    | none => (([] : List Nat), s)
    | some s2 =>
      (s.pc :: (irRun prog s2 fuel).1, (irRun prog s2 fuel).2)) =
    (s.pc :: (irRun prog s2 fuel).1, (irRun prog s2 fuel).2)
  rw [h]

theorem sc_trace (P : List IRInst) (ptrN lbN rbN finN lvN rvN evalL endL lt lf : String)
    (lhs rhs : List IRInst) (σ : IRState)
    (hP : P = .allocI ptrN :: (lhs ++
      ([.neZero lbN lvN, .storeI lbN ptrN, .brI lbN lt lf, .labelI evalL] ++ (rhs ++
       [.neZero rbN rvN, .storeI rbN ptrN, .jumpI endL, .labelI endL,
        .loadI finN ptrN]))))
    (hLlhs : IRInst.labelI endL ∉ lhs) (hLrhs : IRInst.labelI endL ∉ rhs)
    (hElhs : IRInst.labelI evalL ∉ lhs)
    (hne : evalL ≠ endL)
    (hpc : σ.pc = 1 + lhs.length) :
    ((if σ.regs lvN ≠ 0 then lt else lf) = endL →
      (irRun P σ 5).1 = [1 + lhs.length, 2 + lhs.length, 3 + lhs.length,
        8 + lhs.length + rhs.length, 9 + lhs.length + rhs.length] ∧
      (irRun P σ 5).2.pc = 10 + lhs.length + rhs.length ∧
      irStep P (irRun P σ 5).2 = none ∧
      (irRun P σ 5).2.regs finN = (if σ.regs lvN ≠ 0 then 1 else 0) ∧
      (∀ j ∈ (irRun P σ 5).1,
        ¬(5 + lhs.length ≤ j ∧ j < 5 + lhs.length + rhs.length))) ∧
    ((if σ.regs lvN ≠ 0 then lt else lf) = evalL →
      (irRun P σ 3).1 = [1 + lhs.length, 2 + lhs.length, 3 + lhs.length] ∧
      (irRun P σ 3).2.pc = 4 + lhs.length ∧
      P[4 + lhs.length]? = some (.labelI evalL)) := by
  have hidx : ∀ k : Nat, P[1 + lhs.length + k]? =
      ([.neZero lbN lvN, .storeI lbN ptrN, .brI lbN lt lf, .labelI evalL] ++ (rhs ++
       [.neZero rbN rvN, .storeI rbN ptrN, .jumpI endL, .labelI endL,
        .loadI finN ptrN]))[k]? := by
    intro k
    rw [hP]
    rw [show 1 + lhs.length + k = (lhs.length + k) + 1 by omega]
    rw [List.getElem?_cons_succ]
    exact getElem?_append_offset2 _ _ _ _ rfl
  have htail : ∀ k : Nat, P[1 + lhs.length + (4 + (rhs.length + k))]? =
      ([.neZero rbN rvN, .storeI rbN ptrN, .jumpI endL, .labelI endL,
        .loadI finN ptrN] : List IRInst)[k]? := by
    intro k
    rw [hidx (4 + (rhs.length + k))]
    rw [getElem?_append_offset2 _ _ _ (rhs.length + k) (by simp)]
    exact getElem?_append_offset2 _ _ _ _ rfl
  have hI1 : P[1 + lhs.length]? = some (.neZero lbN lvN) := by
    have := hidx 0
    simpa using this
  have hI2 : P[1 + lhs.length + 1]? = some (.storeI lbN ptrN) := by
    have := hidx 1
    simpa using this
  have hI3 : P[1 + lhs.length + 2]? = some (.brI lbN lt lf) := by
    have := hidx 2
    simpa using this
  have hI4 : P[4 + lhs.length]? = some (.labelI evalL) := by
    have := hidx 3
    rw [show 1 + lhs.length + 3 = 4 + lhs.length by omega] at this
    simpa using this
  have hIlabelEnd : P[8 + lhs.length + rhs.length]? = some (.labelI endL) := by
    have := htail 3
    rw [show 1 + lhs.length + (4 + (rhs.length + 3)) = 8 + lhs.length + rhs.length
      by omega] at this
    simpa using this
  have hIload : P[9 + lhs.length + rhs.length]? = some (.loadI finN ptrN) := by
    have := htail 4
    rw [show 1 + lhs.length + (4 + (rhs.length + 4)) = 9 + lhs.length + rhs.length
      by omega] at this
    simpa using this
  have hlen : P.length = 10 + lhs.length + rhs.length := by
    rw [hP]
    simp only [List.length_cons, List.length_append, List.length_nil]
    omega
  have hIend : P[10 + lhs.length + rhs.length]? = none := by
    apply List.getElem?_eq_none
    omega
  have hFindEnd : findLabel P endL = 8 + lhs.length + rhs.length := by
    unfold findLabel
    rw [hP]
    rw [show (IRInst.allocI ptrN :: (lhs ++
      ([.neZero lbN lvN, .storeI lbN ptrN, .brI lbN lt lf, .labelI evalL] ++ (rhs ++
       [.neZero rbN rvN, .storeI rbN ptrN, .jumpI endL, .labelI endL,
        .loadI finN ptrN])))) =
      ((IRInst.allocI ptrN :: lhs) ++
        ([.neZero lbN lvN, .storeI lbN ptrN, .brI lbN lt lf, .labelI evalL] ++ (rhs ++
         [.neZero rbN rvN, .storeI rbN ptrN, .jumpI endL, .labelI endL,
          .loadI finN ptrN]))) by simp]
    rw [findIdx_append_of_all_false _ _ _ (by
      intro x hx
      rcases List.mem_cons.mp hx with rfl | hx2
      · rw [beq_eq_false_iff_ne]
        simp
      · exact not_mem_label_all_false endL lhs hLlhs x hx2)]
    rw [findIdx_append_of_all_false _ _ _ (by
      intro x hx
      simp only [List.mem_cons, List.mem_singleton, List.not_mem_nil, or_false] at hx
      rcases hx with rfl | rfl | rfl | rfl
      · rw [beq_eq_false_iff_ne]; simp
      · rw [beq_eq_false_iff_ne]; simp
      · rw [beq_eq_false_iff_ne]; simp
      · rw [beq_eq_false_iff_ne]
        simp only [ne_eq, IRInst.labelI.injEq]
        exact hne)]
    rw [findIdx_append_of_all_false _ _ _ (not_mem_label_all_false endL rhs hLrhs)]
    have hbeqF : ∀ (x : IRInst), x ≠ IRInst.labelI endL →
        (x == IRInst.labelI endL) = false := fun x hx => beq_eq_false_iff_ne.mpr hx
    have hfl : ([.neZero rbN rvN, .storeI rbN ptrN, .jumpI endL, .labelI endL,
        .loadI finN ptrN] : List IRInst).findIdx (fun i => i == IRInst.labelI endL) = 3 := by
      rw [List.findIdx_cons]
      rw [show (IRInst.neZero rbN rvN == IRInst.labelI endL) = false
        from hbeqF _ (by simp)]
      rw [List.findIdx_cons]
      rw [show (IRInst.storeI rbN ptrN == IRInst.labelI endL) = false
        from hbeqF _ (by simp)]
      rw [List.findIdx_cons]
      rw [show (IRInst.jumpI endL == IRInst.labelI endL) = false
        from hbeqF _ (by simp)]
      rw [List.findIdx_cons]
      rw [show (IRInst.labelI endL == IRInst.labelI endL) = true
        by simp]
      simp only [cond_false, cond_true]
    rw [hfl]
    simp only [List.length_cons, List.length_append, List.length_nil]
    omega
  have hFindEval : findLabel P evalL = 4 + lhs.length := by
    unfold findLabel
    rw [hP]
    rw [show (IRInst.allocI ptrN :: (lhs ++
      ([.neZero lbN lvN, .storeI lbN ptrN, .brI lbN lt lf, .labelI evalL] ++ (rhs ++
       [.neZero rbN rvN, .storeI rbN ptrN, .jumpI endL, .labelI endL,
        .loadI finN ptrN])))) =
      ((IRInst.allocI ptrN :: lhs) ++
        ([.neZero lbN lvN, .storeI lbN ptrN, .brI lbN lt lf, .labelI evalL] ++ (rhs ++
         [.neZero rbN rvN, .storeI rbN ptrN, .jumpI endL, .labelI endL,
          .loadI finN ptrN]))) by simp]
    rw [findIdx_append_of_all_false _ _ _ (by
      intro x hx
      rcases List.mem_cons.mp hx with rfl | hx2
      · rw [beq_eq_false_iff_ne]
        simp
      · exact not_mem_label_all_false evalL lhs hElhs x hx2)]
    have hbeqF2 : ∀ (x : IRInst), x ≠ IRInst.labelI evalL →
        (x == IRInst.labelI evalL) = false := fun x hx => beq_eq_false_iff_ne.mpr hx
    have hfl : (([IRInst.neZero lbN lvN, IRInst.storeI lbN ptrN, IRInst.brI lbN lt lf,
        IRInst.labelI evalL] : List IRInst) ++ (rhs ++
        ([IRInst.neZero rbN rvN, IRInst.storeI rbN ptrN, IRInst.jumpI endL, IRInst.labelI endL,
         IRInst.loadI finN ptrN] : List IRInst))).findIdx
        (fun i => i == IRInst.labelI evalL) = 3 := by
      rw [List.cons_append, List.findIdx_cons]
      rw [show (IRInst.neZero lbN lvN == IRInst.labelI evalL) = false
        from hbeqF2 _ (by simp)]
      rw [List.cons_append, List.findIdx_cons]
      rw [show (IRInst.storeI lbN ptrN == IRInst.labelI evalL) = false
        from hbeqF2 _ (by simp)]
      rw [List.cons_append, List.findIdx_cons]
      rw [show (IRInst.brI lbN lt lf == IRInst.labelI evalL) = false
        from hbeqF2 _ (by simp)]
      rw [List.cons_append, List.findIdx_cons]
      rw [show (IRInst.labelI evalL == IRInst.labelI evalL) = true
        by simp]
      simp only [cond_false, cond_true]
    rw [hfl]
    simp only [List.length_cons, List.length_nil]
    omega
  have hs1 : irStep P σ = some ⟨1 + lhs.length + 1,
      upd σ.regs lbN (if σ.regs lvN ≠ 0 then 1 else 0), σ.mem⟩ := by
    unfold irStep
    rw [hpc, hI1]
  have hs2 : irStep P ⟨1 + lhs.length + 1,
      upd σ.regs lbN (if σ.regs lvN ≠ 0 then 1 else 0), σ.mem⟩ = some ⟨1 + lhs.length + 2,
      upd σ.regs lbN (if σ.regs lvN ≠ 0 then 1 else 0),
      upd σ.mem ptrN (if σ.regs lvN ≠ 0 then 1 else 0)⟩ := by
    unfold irStep
    dsimp only
    rw [hI2]
    dsimp only
    rw [upd_same]
  have hcond : ((if σ.regs lvN ≠ 0 then (1 : Int) else 0) ≠ 0) = (σ.regs lvN ≠ 0) := by
    by_cases h : σ.regs lvN ≠ 0 <;> simp [h]
  have hs3 : irStep P ⟨1 + lhs.length + 2,
      upd σ.regs lbN (if σ.regs lvN ≠ 0 then 1 else 0),
      upd σ.mem ptrN (if σ.regs lvN ≠ 0 then 1 else 0)⟩ = some
      ⟨findLabel P (if σ.regs lvN ≠ 0 then lt else lf),
      upd σ.regs lbN (if σ.regs lvN ≠ 0 then 1 else 0),
      upd σ.mem ptrN (if σ.regs lvN ≠ 0 then 1 else 0)⟩ := by
    unfold irStep
    dsimp only
    rw [hI3]
    dsimp only
    rw [upd_same]
    by_cases h : σ.regs lvN ≠ 0 <;> simp [h]
  refine ⟨?_, ?_⟩
  · intro hbr
    rw [hbr] at hs3
    rw [hFindEnd] at hs3
    have hs4 : irStep P ⟨8 + lhs.length + rhs.length,
        upd σ.regs lbN (if σ.regs lvN ≠ 0 then 1 else 0),
        upd σ.mem ptrN (if σ.regs lvN ≠ 0 then 1 else 0)⟩ = some
        ⟨8 + lhs.length + rhs.length + 1,
        upd σ.regs lbN (if σ.regs lvN ≠ 0 then 1 else 0),
        upd σ.mem ptrN (if σ.regs lvN ≠ 0 then 1 else 0)⟩ := by
      unfold irStep
      dsimp only
      rw [hIlabelEnd]
    have hs5 : irStep P ⟨8 + lhs.length + rhs.length + 1,
        upd σ.regs lbN (if σ.regs lvN ≠ 0 then 1 else 0),
        upd σ.mem ptrN (if σ.regs lvN ≠ 0 then 1 else 0)⟩ = some
        ⟨8 + lhs.length + rhs.length + 1 + 1,
        upd (upd σ.regs lbN (if σ.regs lvN ≠ 0 then 1 else 0)) finN
          (if σ.regs lvN ≠ 0 then 1 else 0),
        upd σ.mem ptrN (if σ.regs lvN ≠ 0 then 1 else 0)⟩ := by
      unfold irStep
      dsimp only
      rw [show (8 + lhs.length + rhs.length + 1) = 9 + lhs.length + rhs.length by omega,
        hIload]
      dsimp only
      rw [upd_same]
    have hrun : irRun P σ 5 =
        (σ.pc :: (1 + lhs.length + 1) :: (1 + lhs.length + 2) ::
          (8 + lhs.length + rhs.length) :: (8 + lhs.length + rhs.length + 1) :: [],
        ⟨8 + lhs.length + rhs.length + 1 + 1,
         upd (upd σ.regs lbN (if σ.regs lvN ≠ 0 then 1 else 0)) finN
           (if σ.regs lvN ≠ 0 then 1 else 0),
         upd σ.mem ptrN (if σ.regs lvN ≠ 0 then 1 else 0)⟩) := by
      rw [show (5 : Nat) = 4 + 1 from rfl, irRun_succ _ _ _ _ hs1]
      rw [show (4 : Nat) = 3 + 1 from rfl, irRun_succ _ _ _ _ hs2]
      rw [show (3 : Nat) = 2 + 1 from rfl, irRun_succ _ _ _ _ hs3]
      rw [show (2 : Nat) = 1 + 1 from rfl, irRun_succ _ _ _ _ hs4]
      rw [show (1 : Nat) = 0 + 1 from rfl, irRun_succ _ _ _ _ hs5]
      rfl
    rw [hrun]
    dsimp only
    refine ⟨?_, by omega, ?_, ?_, ?_⟩
    · simp only [List.cons.injEq, and_true, true_and]
      refine ⟨by omega, by omega, by omega, by omega⟩
    · show irStep P _ = none
      unfold irStep
      dsimp only
      rw [show (8 + lhs.length + rhs.length + 1 + 1) = 10 + lhs.length + rhs.length
        by omega, hIend]
    · exact upd_same _ _ _
    · intro j hj
      simp only [List.mem_cons, List.not_mem_nil, or_false, hpc] at hj
      rcases hj with rfl | rfl | rfl | rfl | rfl <;> omega
  · intro hbr
    rw [hbr] at hs3
    rw [hFindEval] at hs3
    have hrun : irRun P σ 3 =
        (σ.pc :: (1 + lhs.length + 1) :: (1 + lhs.length + 2) :: [],
        ⟨4 + lhs.length,
         upd σ.regs lbN (if σ.regs lvN ≠ 0 then 1 else 0),
         upd σ.mem ptrN (if σ.regs lvN ≠ 0 then 1 else 0)⟩) := by
      rw [show (3 : Nat) = 2 + 1 from rfl, irRun_succ _ _ _ _ hs1]
      rw [show (2 : Nat) = 1 + 1 from rfl, irRun_succ _ _ _ _ hs2]
      rw [show (1 : Nat) = 0 + 1 from rfl, irRun_succ _ _ _ _ hs3]
      rfl
    rw [hrun]
    dsimp only
    refine ⟨?_, rfl, hI4⟩
    simp only [List.cons.injEq, and_true]
    refine ⟨by omega, by omega, by omega⟩

theorem append_ne_of_length_ne (a b n : String) (h : a.length ≠ b.length) :
    a ++ n ≠ b ++ n := by
  intro he
  have h2 := congrArg String.length he
  rw [String.length_append, String.length_append] at h2
  omega

theorem land_labels_ne (n : String) :
    ("%land_eval_rhs_" ++ n) ≠ ("%land_end_" ++ n) :=
  append_ne_of_length_ne _ _ n (by decide)

theorem lor_labels_ne (n : String) :
    ("%lor_eval_rhs_" ++ n) ≠ ("%lor_end_" ++ n) :=
  append_ne_of_length_ne _ _ n (by decide)

/-- C7: short-circuit evaluation of the logical connectives.  In the IR
emitted for a && b the branch on the booleanised left operand reaches the
end label without touching the block generated for b whenever that operand
is zero: the five executed instructions are the booleanisation, the store,
the branch, the end label and the final load, none of their positions lies
in the range holding b's code, the machine then halts, and the loaded
result is 0; when the left operand is non-zero the branch lands exactly on
the rhs-evaluation label.  Symmetrically for a || b with the roles of zero
and non-zero swapped and final value 1 on the shortcut path.  The operand
blocks are abstract instruction lists, assumed not to contain the two label
lines the connective itself creates, and execution starts at the first
instruction after the left block. -/
theorem C7_short_circuit (current_id r1 r2 : Nat) (lhs rhs : List IRInst)
    (lhs_val rhs_val : String) (σ : IRState)
    (hA1 : IRInst.labelI ("%land_end_" ++ decimalString current_id) ∉ lhs)
    (hA2 : IRInst.labelI ("%land_end_" ++ decimalString current_id) ∉ rhs)
    (hA3 : IRInst.labelI ("%land_eval_rhs_" ++ decimalString current_id) ∉ lhs)
    (hO1 : IRInst.labelI ("%lor_end_" ++ decimalString current_id) ∉ lhs)
    (hO2 : IRInst.labelI ("%lor_end_" ++ decimalString current_id) ∉ rhs)
    (hO3 : IRInst.labelI ("%lor_eval_rhs_" ++ decimalString current_id) ∉ lhs)
    (hpc : σ.pc = 1 + lhs.length) :
    (σ.regs lhs_val = 0 →
      (irRun (genLAndIR current_id lhs lhs_val r1 rhs rhs_val r2) σ 5).1 =
        [1 + lhs.length, 2 + lhs.length, 3 + lhs.length,
         8 + lhs.length + rhs.length, 9 + lhs.length + rhs.length] ∧
      (∀ j ∈ (irRun (genLAndIR current_id lhs lhs_val r1 rhs rhs_val r2) σ 5).1,
        ¬(5 + lhs.length ≤ j ∧ j < 5 + lhs.length + rhs.length)) ∧
      irStep (genLAndIR current_id lhs lhs_val r1 rhs rhs_val r2)
        (irRun (genLAndIR current_id lhs lhs_val r1 rhs rhs_val r2) σ 5).2 = none ∧
      (irRun (genLAndIR current_id lhs lhs_val r1 rhs rhs_val r2) σ 5).2.regs
        ("%" ++ decimalString (r2 + 1)) = 0) ∧
    (σ.regs lhs_val ≠ 0 →
      (irRun (genLAndIR current_id lhs lhs_val r1 rhs rhs_val r2) σ 3).2.pc =
        4 + lhs.length ∧
      (genLAndIR current_id lhs lhs_val r1 rhs rhs_val r2)[4 + lhs.length]? =
        some (.labelI ("%land_eval_rhs_" ++ decimalString current_id))) ∧
    (σ.regs lhs_val ≠ 0 →
      (irRun (genLOrIR current_id lhs lhs_val r1 rhs rhs_val r2) σ 5).1 =
        [1 + lhs.length, 2 + lhs.length, 3 + lhs.length,
         8 + lhs.length + rhs.length, 9 + lhs.length + rhs.length] ∧
      (∀ j ∈ (irRun (genLOrIR current_id lhs lhs_val r1 rhs rhs_val r2) σ 5).1,
        ¬(5 + lhs.length ≤ j ∧ j < 5 + lhs.length + rhs.length)) ∧
      irStep (genLOrIR current_id lhs lhs_val r1 rhs rhs_val r2)
        (irRun (genLOrIR current_id lhs lhs_val r1 rhs rhs_val r2) σ 5).2 = none ∧
      (irRun (genLOrIR current_id lhs lhs_val r1 rhs rhs_val r2) σ 5).2.regs
        ("%" ++ decimalString (r2 + 1)) = 1) ∧
    (σ.regs lhs_val = 0 →
      (irRun (genLOrIR current_id lhs lhs_val r1 rhs rhs_val r2) σ 3).2.pc =
        4 + lhs.length ∧
      (genLOrIR current_id lhs lhs_val r1 rhs rhs_val r2)[4 + lhs.length]? =
        some (.labelI ("%lor_eval_rhs_" ++ decimalString current_id))) := by
  have hA := sc_trace (genLAndIR current_id lhs lhs_val r1 rhs rhs_val r2)
    ("@land_res_" ++ decimalString current_id)
    ("%" ++ decimalString r1) ("%" ++ decimalString r2)
    ("%" ++ decimalString (r2 + 1)) lhs_val rhs_val
    ("%land_eval_rhs_" ++ decimalString current_id)
    ("%land_end_" ++ decimalString current_id)
    ("%land_eval_rhs_" ++ decimalString current_id)
    ("%land_end_" ++ decimalString current_id)
    lhs rhs σ (by simp [genLAndIR]) hA1 hA2 hA3
    (land_labels_ne (decimalString current_id)) hpc
  have hO := sc_trace (genLOrIR current_id lhs lhs_val r1 rhs rhs_val r2)
    ("@lor_res_" ++ decimalString current_id)
    ("%" ++ decimalString r1) ("%" ++ decimalString r2)
    ("%" ++ decimalString (r2 + 1)) lhs_val rhs_val
    ("%lor_eval_rhs_" ++ decimalString current_id)
    ("%lor_end_" ++ decimalString current_id)
    ("%lor_end_" ++ decimalString current_id)
    ("%lor_eval_rhs_" ++ decimalString current_id)
    lhs rhs σ (by simp [genLOrIR]) hO1 hO2 hO3
    (lor_labels_ne (decimalString current_id)) hpc
  refine ⟨?_, ?_, ?_, ?_⟩
  · intro h0
    have h := hA.1 (by simp [h0])
    refine ⟨h.1, h.2.2.2.2, h.2.2.1, ?_⟩
    rw [h.2.2.2.1, if_neg (by simp [h0])]
  · intro hnz
    have h := hA.2 (by simp [hnz])
    exact ⟨h.2.1, h.2.2⟩
  · intro hnz
    have h := hO.1 (by simp [hnz])
    refine ⟨h.1, h.2.2.2.2, h.2.2.1, ?_⟩
    rw [h.2.2.2.1, if_pos hnz]
  · intro h0
    have h := hO.2 (by simp [h0])
    exact ⟨h.2.1, h.2.2⟩

/-- Witness for C7 at concrete inputs: with an empty left block, a
one-instruction right block and an all-zero register file, a && b loads 0
without entering the right block; with an all-one register file the branch
lands on the rhs-evaluation label; and symmetrically a || b loads 1 on its
shortcut path and enters the right block only from the all-zero file. -/
theorem C7_short_circuit_witness :
    (irRun (genLAndIR 0 [] "%0" 1 [.genericI 5] "%2" 2)
      ⟨1, fun _ => 0, fun _ => 0⟩ 5).2.regs ("%" ++ decimalString 3) = 0 ∧
    (irRun (genLAndIR 0 [] "%0" 1 [.genericI 5] "%2" 2)
      ⟨1, fun _ => 1, fun _ => 0⟩ 3).2.pc = 4 + List.length ([] : List IRInst) ∧
    (irRun (genLOrIR 0 [] "%0" 1 [.genericI 5] "%2" 2)
      ⟨1, fun _ => 1, fun _ => 0⟩ 5).2.regs ("%" ++ decimalString 3) = 1 ∧
    (irRun (genLOrIR 0 [] "%0" 1 [.genericI 5] "%2" 2)
      ⟨1, fun _ => 0, fun _ => 0⟩ 3).2.pc = 4 + List.length ([] : List IRInst) := by
  have h0 := C7_short_circuit 0 1 2 [] [.genericI 5] "%0" "%2"
    ⟨1, fun _ => 0, fun _ => 0⟩ (by decide) (by decide) (by decide)
    (by decide) (by decide) (by decide) rfl
  have h1 := C7_short_circuit 0 1 2 [] [.genericI 5] "%0" "%2"
    ⟨1, fun _ => 1, fun _ => 0⟩ (by decide) (by decide) (by decide)
    (by decide) (by decide) (by decide) rfl
  exact ⟨(h0.1 rfl).2.2.2, (h1.2.1 (by norm_num)).1,
    (h1.2.2.1 (by norm_num)).2.2.2, (h0.2.2.2 rfl).1⟩


end SysY
